import Mathlib

/-!
BetterMouseYoke: the per-frame control-mapping state machine.

A shallow embedding of `src/BetterMouseYoke/plugin.c`: the command callbacks
`toggle_yoke_control_cb`, `rudder_left_cb`, `rudder_right_cb`, the frame
callback `loop_cb` and its helper `controlling_rudder`.

Conventions of the embedding.

* The file-scope `static` variables of `plugin.c` are the fields of `State`,
  under their source names.  C `int` variables are `Int`, the `bool` is `Bool`.
* C `float` values on the yaw paths (keyboard step, mouse-capture quotient,
  return-to-center decay) are idealised as exact rationals (`ℚ`): rounding,
  infinities and NaN are outside the model there.  The two divisors that can be
  zero in C, the deflection distance and the screen size, make the C quotient
  an infinity or a NaN where the rational quotient is `0`; a theorem whose
  conclusion rests on such a quotient assumes the divisor non-zero.
* The roll and pitch expressions of the yoke branch are modelled in IEEE 754
  binary32 arithmetic (`fl32`, round to nearest, ties to even, one rounding per
  conversion and per operation, as a compiler evaluating `float` expressions in
  single precision does), because the null-zone comparison that follows them is
  not continuous.  The exponent range of binary32 is not modelled: the operands
  are 32-bit integers and their quotients, which neither overflow nor underflow.
* `get_cursor_pos` and `XPLMGetMouseLocationGlobal` are separate host readings
  (`Host.cursor`, `Host.mouse_global`): the former is platform code and only on
  the non-Apple build a plain call of the latter.
* The menu and settings code (`menu_init`, `ini_geti`, `ini_getf`) is not part
  of the sources; the option variables it fills are ordinary fields of `State`
  that no callback modelled here writes.
* Everything a callback reads from the host (clock, pointer, mouse button,
  screen size, current roll/pitch datarefs) is a field of `Host`; one `Host`
  value is the host as seen during one callback invocation.
* Everything a callback does to the host (dataref writes, pointer moves,
  cursor glyph changes, scheduling of the flight loop) is an `Effect`; a
  callback returns the effects in program order.
-/

namespace BetterMouseYoke

/-- The enum `cursor_t` of `plugin.h`. -/
inductive cursor_t where
  | CURSOR_ARROW
  | CURSOR_YOKE
  | CURSOR_RUDDER
  deriving DecidableEq, Repr

/-- The three phases of an X-Plane command (`XPLMCommandPhase`). -/
inductive XPLMCommandPhase where
  | xplm_CommandBegin
  | xplm_CommandContinue
  | xplm_CommandEnd
  deriving DecidableEq, Repr

/-- The file-scope variables of `plugin.c` that the callbacks read or write. -/
structure State where
  screen_width : Int
  screen_height : Int
  yoke_control_enabled : Int
  rudder_control : Int
  centre_control : Int
  bind_rudder : Int
  set_pos : Int
  change_cursor : Int
  cursor_pos : Int × Int
  set_rudder_pos : Int
  rudder_return : Int
  rudder_defl_dist : Int
  kbd_rudder_on : Bool
  kbd_rudder_speed : ℚ
  yaw_ratio : ℚ
  rudder_ret_spd : ℚ
  yoke_nz : ℚ
  _last_time : Int
  deriving DecidableEq

/-- What one callback invocation reads from the host. -/
structure Host where
  /-- Result of `get_time_ms()`. -/
  time_ms : Int
  /-- Result of `get_cursor_pos(&m_x, &m_y)`. -/
  cursor : Int × Int
  /-- Result of `XPLMGetMouseLocationGlobal`. -/
  mouse_global : Int × Int
  /-- Result of `left_mouse_down()`; non-zero when the button is held. -/
  left_mouse_down : Int
  /-- Result of `XPLMGetScreenSize`. -/
  screen_size : Int × Int
  /-- Result of `XPLMGetDataf(yoke_roll_ratio)`. -/
  roll_ratio : ℚ
  /-- Result of `XPLMGetDataf(yoke_pitch_ratio)`. -/
  pitch_ratio : ℚ
  deriving DecidableEq

/-- The calls a callback makes on the host. -/
inductive Effect where
  /-- The call `XPLMSetDataf(yoke_roll_ratio, v)`. -/
  | set_roll (v : ℚ)
  /-- The call `XPLMSetDataf(yoke_pitch_ratio, v)`. -/
  | set_pitch (v : ℚ)
  /-- The call `XPLMSetDataf(yoke_heading_ratio, v)`. -/
  | set_heading (v : ℚ)
  /-- The call `XPLMScheduleFlightLoop(loop_id, -1.0f, 0)`. -/
  | schedule_flight_loop
  /-- The call `set_cursor_pos(x, y)`. -/
  | set_cursor_pos (x y : Int)
  /-- The call `set_cursor_bmp(c)`. -/
  | set_cursor_bmp (c : cursor_t)
  deriving DecidableEq

/-- Result of a command callback: new globals, host calls made, C return value. -/
structure CmdResult where
  state : State
  effects : List Effect
  ret : Int
  deriving DecidableEq

/-- Result of `loop_cb`: new globals, host calls made, the returned interval
(`-1` is "call again next frame", `0` is "stop"). -/
structure LoopResult where
  state : State
  effects : List Effect
  ret : ℚ
  deriving DecidableEq

/-- Result of `controlling_rudder`: new globals, host calls made, the values
left in `*x` and `*y`, and the returned `rudder_control`. -/
structure RudderResult where
  state : State
  effects : List Effect
  x : Int
  y : Int
  ret : Int
  deriving DecidableEq

/-- C conversion of a floating value to `int`: truncation toward zero. -/
def float_to_int (q : ℚ) : Int :=
  if 0 ≤ q then ⌊q⌋ else ⌈q⌉

/-- The call `set_cursor_bmp(c)` guarded by `if (change_cursor)`. -/
def change_cursor_bmp (s : State) (c : cursor_t) : List Effect :=
  if s.change_cursor ≠ 0 then [Effect.set_cursor_bmp c] else []

/-- The function `set_cursor_from_yoke`: one call of `set_cursor_pos`. -/
def set_cursor_from_yoke (screen_width screen_height : Int) (h : Host) : List Effect :=
  [Effect.set_cursor_pos
    (float_to_int ((1 / 2 : ℚ) * (screen_width : ℚ) * (h.roll_ratio + 1)))
    (float_to_int ((1 / 2 : ℚ) * (screen_height : ℚ) * (1 - h.pitch_ratio)))]

/-- The function `toggle_yoke_control_cb`. -/
def toggle_yoke_control_cb (s : State) (phase : XPLMCommandPhase) (h : Host) : CmdResult :=
  if phase ≠ XPLMCommandPhase.xplm_CommandBegin then
    { state := s, effects := [], ret := 1 }
  else if s.yoke_control_enabled ≠ 0 then
    { state := { s with yoke_control_enabled := 0, rudder_control := 0 },
      effects := change_cursor_bmp s cursor_t.CURSOR_ARROW,
      ret := 1 }
  else
    { state := { s with screen_width := h.screen_size.1,
                        screen_height := h.screen_size.2,
                        yoke_control_enabled := 1 },
      effects :=
        (if s.set_pos ≠ 0 then set_cursor_from_yoke h.screen_size.1 h.screen_size.2 h else [])
          ++ change_cursor_bmp s cursor_t.CURSOR_YOKE
          ++ [Effect.schedule_flight_loop],
      ret := 1 }

/-- The function `rudder_left_cb`. -/
def rudder_left_cb (s : State) (phase : XPLMCommandPhase) (h : Host) : CmdResult :=
  if s.yoke_control_enabled = 0 ∧ s.bind_rudder = 1 then
    { state := s, effects := [], ret := 1 }
  else if s.rudder_control = 1 then
    { state := s, effects := [], ret := 1 }
  else if phase = XPLMCommandPhase.xplm_CommandBegin then
    { state := { s with yaw_ratio := -(s.kbd_rudder_speed), kbd_rudder_on := true },
      effects := [Effect.set_heading (-(s.kbd_rudder_speed))],
      ret := 1 }
  else if phase = XPLMCommandPhase.xplm_CommandContinue then
    let yaw := s.yaw_ratio - s.kbd_rudder_speed
    let yaw := if yaw < -1 then -1 else yaw
    { state := { s with yaw_ratio := yaw },
      effects := [Effect.set_heading yaw],
      ret := 1 }
  else if s.yoke_control_enabled = 0 then
    { state := { s with kbd_rudder_on := false, _last_time := h.time_ms },
      effects := [Effect.schedule_flight_loop],
      ret := 1 }
  else
    { state := { s with kbd_rudder_on := false, _last_time := h.time_ms },
      effects := [],
      ret := 1 }

/-- The function `rudder_right_cb`. -/
def rudder_right_cb (s : State) (phase : XPLMCommandPhase) (h : Host) : CmdResult :=
  if s.yoke_control_enabled = 0 ∧ s.bind_rudder = 1 then
    { state := s, effects := [], ret := 1 }
  else if s.rudder_control = 1 then
    { state := s, effects := [], ret := 1 }
  else if phase = XPLMCommandPhase.xplm_CommandBegin then
    { state := { s with yaw_ratio := s.kbd_rudder_speed, kbd_rudder_on := true },
      effects := [Effect.set_heading s.kbd_rudder_speed],
      ret := 1 }
  else if phase = XPLMCommandPhase.xplm_CommandContinue then
    let yaw := s.yaw_ratio + s.kbd_rudder_speed
    let yaw := if yaw > 1 then 1 else yaw
    { state := { s with yaw_ratio := yaw },
      effects := [Effect.set_heading yaw],
      ret := 1 }
  else if s.yoke_control_enabled = 0 then
    { state := { s with kbd_rudder_on := false, _last_time := h.time_ms },
      effects := [Effect.schedule_flight_loop],
      ret := 1 }
  else
    { state := { s with kbd_rudder_on := false, _last_time := h.time_ms },
      effects := [],
      ret := 1 }

/-- The function `controlling_rudder`, called with `*x = x` and `*y = y`. -/
def controlling_rudder (s : State) (h : Host) (x y : Int) : RudderResult :=
  if h.left_mouse_down ≠ 0 then
    if s.rudder_control = 0 then
      let s1 := { s with cursor_pos := h.mouse_global }
      if s.set_rudder_pos ≠ 0 then
        let x1 := float_to_int ((x : ℚ) + s.yaw_ratio * (s.rudder_defl_dist : ℚ))
        { state := { s1 with rudder_control := 1 },
          effects := change_cursor_bmp s cursor_t.CURSOR_RUDDER ++ [Effect.set_cursor_pos x1 y],
          x := x1, y := y, ret := 1 }
      else
        { state := { s1 with rudder_control := 1 },
          effects := change_cursor_bmp s cursor_t.CURSOR_RUDDER,
          x := x, y := y, ret := 1 }
    else
      { state := s, effects := [], x := x, y := y, ret := s.rudder_control }
  else
    if s.rudder_control ≠ 0 then
      { state := { s with rudder_control := 0 },
        effects := change_cursor_bmp s cursor_t.CURSOR_YOKE
          ++ [Effect.set_cursor_pos s.cursor_pos.1 s.cursor_pos.2],
        x := s.cursor_pos.1, y := s.cursor_pos.2, ret := 0 }
    else
      { state := s, effects := [], x := x, y := y, ret := s.rudder_control }

/-- The return-to-center expression shared by both branches of `loop_cb`:
`yaw > 0 ? max(0, yaw - dt * spd) : min(0, yaw + dt * spd)` with
`dt = (now - _last_time) / 1000.0f`. -/
def rudder_return_step (yaw spd : ℚ) (now last : Int) : ℚ :=
  let dt : ℚ := ((now - last : Int) : ℚ) / 1000
  if yaw > 0 then max 0 (yaw - dt * spd) else min 0 (yaw + dt * spd)

/-- The mouse-capture expression of `loop_cb`:
`dist = min(max(m_x - cursor_pos[0], -rudder_defl_dist), rudder_defl_dist)` and
`yaw_ratio = dist / (float)rudder_defl_dist`. -/
def capture_yaw (m_x anchor_x rudder_defl_dist : Int) : ℚ :=
  let dist : Int := min (max (m_x - anchor_x) (-rudder_defl_dist)) rudder_defl_dist
  (dist : ℚ) / (rudder_defl_dist : ℚ)

/-- Rounding of a rational to the nearest integer, ties to the even one. -/
def round_half_even (t : ℚ) : Int :=
  if t - ⌊t⌋ < 1 / 2 then ⌊t⌋
  else if 1 / 2 < t - ⌊t⌋ then ⌊t⌋ + 1
  else if ⌊t⌋ % 2 = 0 then ⌊t⌋ else ⌊t⌋ + 1

/-- Rounding to the nearest IEEE 754 binary32 value. -/
def fl32 (q : ℚ) : ℚ :=
  (round_half_even (q / (2 : ℚ) ^ (Int.log 2 |q| - 23)) : ℚ) * (2 : ℚ) ^ (Int.log 2 |q| - 23)

/-- The expression `2 * (m_x / (float)screen_width) - 1` of `loop_cb` in
binary32 arithmetic: both operands of the division are converted to `float`,
and the division, the multiplication and the subtraction each round. -/
def yoke_roll (m_x screen_width : Int) : ℚ :=
  fl32 (fl32 (2 * fl32 (fl32 (m_x : ℚ) / fl32 (screen_width : ℚ))) - 1)

/-- The expression `1 - 2 * (m_y / (float)screen_height)` of `loop_cb` in
binary32 arithmetic, rounded like `yoke_roll`. -/
def yoke_pitch (m_y screen_height : Int) : ℚ :=
  fl32 (1 - fl32 (2 * fl32 (fl32 (m_y : ℚ) / fl32 (screen_height : ℚ))))

/-- The null-zone test of `loop_cb`, written there once per axis:
`if (v > yoke_nz || v < -yoke_nz)` the axis gets `v`, else `0`. -/
def null_zone (yoke_nz v : ℚ) : ℚ :=
  if v > yoke_nz ∨ v < -yoke_nz then v else 0

/-- The function `loop_cb`. -/
def loop_cb (s : State) (h : Host) : LoopResult :=
  if s.yoke_control_enabled = 0 then
    let centre : List Effect :=
      if s.centre_control ≠ 0 then [Effect.set_roll 0, Effect.set_pitch 0] else []
    if s.yaw_ratio ≠ 0 ∧ s.rudder_return ≠ 0 then
      let yaw := rudder_return_step s.yaw_ratio s.rudder_ret_spd h.time_ms s._last_time
      { state := { s with _last_time := h.time_ms, yaw_ratio := yaw },
        effects := centre ++ [Effect.set_heading yaw],
        ret := if yaw ≠ 0 then -1 else 0 }
    else
      { state := s, effects := centre, ret := 0 }
  else
    let r := controlling_rudder s h h.cursor.1 h.cursor.2
    if r.ret ≠ 0 then
      let yaw : ℚ := capture_yaw r.x r.state.cursor_pos.1 r.state.rudder_defl_dist
      { state := { r.state with _last_time := h.time_ms, yaw_ratio := yaw },
        effects := r.effects ++ [Effect.set_heading yaw],
        ret := -1 }
    else
      let axes : List Effect :=
        [Effect.set_roll (null_zone r.state.yoke_nz (yoke_roll r.x r.state.screen_width)),
         Effect.set_pitch (null_zone r.state.yoke_nz (yoke_pitch r.y r.state.screen_height))]
      if r.state.yaw_ratio ≠ 0 ∧ r.state.rudder_return ≠ 0 ∧ r.state.kbd_rudder_on = false then
        let yaw :=
          rudder_return_step r.state.yaw_ratio r.state.rudder_ret_spd h.time_ms r.state._last_time
        { state := { r.state with _last_time := h.time_ms, yaw_ratio := yaw },
          effects := r.effects ++ axes ++ [Effect.set_heading yaw],
          ret := -1 }
      else
        { state := r.state, effects := r.effects ++ axes, ret := -1 }

/-- The values `XPluginStart` and `init_menu` load from the settings file. -/
structure Config where
  rudder_defl_dist : Int
  rudder_ret_spd : ℚ
  yoke_nz : ℚ
  kbd_rudder_speed : ℚ
  centre_control : Int
  bind_rudder : Int
  set_pos : Int
  change_cursor : Int
  set_rudder_pos : Int
  rudder_return : Int
  deriving DecidableEq

/-- The globals after `XPluginStart`: the settings as loaded, every other
`static` still at the zero C gives it. -/
def initial_state (c : Config) : State :=
  { screen_width := 0
    screen_height := 0
    yoke_control_enabled := 0
    rudder_control := 0
    centre_control := c.centre_control
    bind_rudder := c.bind_rudder
    set_pos := c.set_pos
    change_cursor := c.change_cursor
    cursor_pos := (0, 0)
    set_rudder_pos := c.set_rudder_pos
    rudder_return := c.rudder_return
    rudder_defl_dist := c.rudder_defl_dist
    kbd_rudder_on := false
    kbd_rudder_speed := c.kbd_rudder_speed
    yaw_ratio := 0
    rudder_ret_spd := c.rudder_ret_spd
    yoke_nz := c.yoke_nz
    _last_time := 0 }

/-- The settings `XPluginStart` falls back to when the settings file is silent
(`RUDDER_DEFL_DIST`, `RUDDER_RET_SPEED`, `0.05`, `0.15`, and the menu defaults
listed in `init_menu`). -/
def default_config : Config :=
  { rudder_defl_dist := 200
    rudder_ret_spd := 2
    yoke_nz := 1 / 20
    kbd_rudder_speed := 3 / 20
    centre_control := 0
    bind_rudder := 0
    set_pos := 1
    change_cursor := 1
    set_rudder_pos := 1
    rudder_return := 1 }

/-- One callback invocation by the host, with what the host shows it. -/
inductive Event where
  /-- A frame tick: `loop_cb`. -/
  | tick (h : Host)
  /-- The command ToggleYokeControl: `toggle_yoke_control_cb`. -/
  | toggle (phase : XPLMCommandPhase) (h : Host)
  /-- The command RudderLeft: `rudder_left_cb`. -/
  | rudder_left (phase : XPLMCommandPhase) (h : Host)
  /-- The command RudderRight: `rudder_right_cb`. -/
  | rudder_right (phase : XPLMCommandPhase) (h : Host)
  deriving DecidableEq

/-- The host as seen by the callback an event invokes. -/
def Event.host : Event → Host
  | Event.tick h => h
  | Event.toggle _ h => h
  | Event.rudder_left _ h => h
  | Event.rudder_right _ h => h

/-- The globals and the host calls after the callback of one event. -/
def step (s : State) : Event → State × List Effect
  | Event.tick h => ((loop_cb s h).state, (loop_cb s h).effects)
  | Event.toggle p h => ((toggle_yoke_control_cb s p h).state, (toggle_yoke_control_cb s p h).effects)
  | Event.rudder_left p h => ((rudder_left_cb s p h).state, (rudder_left_cb s p h).effects)
  | Event.rudder_right p h => ((rudder_right_cb s p h).state, (rudder_right_cb s p h).effects)

/-- The globals after a sequence of events. -/
def run (s : State) : List Event → State
  | [] => s
  | e :: es => run (step s e).1 es

/-- The globals and host calls after each event of a sequence, in order. -/
def trace (s : State) : List Event → List (State × List Effect)
  | [] => []
  | e :: es => step s e :: trace (step s e).1 es

/-- The clock readings of a sequence of events never go backwards, starting
from the reading `t`. -/
def clock_monotone (t : Int) : List Event → Prop
  | [] => True
  | e :: es => t ≤ e.host.time_ms ∧ clock_monotone e.host.time_ms es

/-- A state the plugin can be in: reached from the state after start-up by
some sequence of callbacks. -/
def Reachable (c : Config) (s : State) : Prop :=
  ∃ es : List Event, run (initial_state c) es = s

/-- The dead zone as the specification words it: `0` when `|v| ≤ nz`, else `v`
unchanged. -/
def dead_zone_spec (nz v : ℚ) : ℚ :=
  if |v| ≤ nz then 0 else v

/-- Clamping as the specification uses it: `v` held inside `[lo, hi]`. -/
def clamp_spec (v lo hi : Int) : Int :=
  if v < lo then lo else if hi < v then hi else v

/-- Mouse-capture yaw as the specification words it:
`clamp(dx, -D, D) / D` for the displacement `dx = x - anchorX`. -/
def mouse_yaw_spec (D dx : Int) : ℚ :=
  (clamp_spec dx (-D) D : ℚ) / (D : ℚ)

/-- The raw roll of the Axis Mapper as the specification words it. -/
def roll_spec (x screenWidth : Int) : ℚ :=
  2 * ((x : ℚ) / (screenWidth : ℚ)) - 1

/-- The raw pitch of the Axis Mapper as the specification words it. -/
def pitch_spec (y screenHeight : Int) : ℚ :=
  1 - 2 * ((y : ℚ) / (screenHeight : ℚ))

/-- The settings under which every yaw source stays inside `[-1, 1]`: keyboard
step in `[0, 1]`, non-negative return speed, non-zero deflection distance. -/
def settings_in_range (s : State) : Prop :=
  (0 ≤ s.kbd_rudder_speed ∧ s.kbd_rudder_speed ≤ 1) ∧ 0 ≤ s.rudder_ret_spd ∧ s.rudder_defl_dist ≠ 0

/-- The stored yaw lies in `[-1, 1]`. -/
def yaw_in_range (s : State) : Prop :=
  -1 ≤ s.yaw_ratio ∧ s.yaw_ratio ≤ 1

/-- Every value written to the heading-ratio output lies in `[-1, 1]`. -/
def heading_writes_in_range (effects : List Effect) : Prop :=
  ∀ v : ℚ, Effect.set_heading v ∈ effects → -1 ≤ v ∧ v ≤ 1

/-- A host in which nothing happens: clock at `0`, pointer at the origin,
button released. -/
def idle_host : Host :=
  { time_ms := 0
    cursor := (0, 0)
    mouse_global := (0, 0)
    left_mouse_down := 0
    screen_size := (0, 0)
    roll_ratio := 0
    pitch_ratio := 0 }

/-- The default settings with the keyboard rudder step raised to `2`
(`rudder_dfl_speed = 2` in the settings file). -/
def fast_keyboard_config : Config :=
  { default_config with kbd_rudder_speed := 2 }

/-- A host whose clock reads `t` ms, pointer at the origin, button released. -/
def host_at (t : Int) : Host :=
  { idle_host with time_ms := t }

/-- A host showing a 400 x 400 screen, the pointer at `(x, y)` for both pointer
queries, the button held or not, and the clock at `t` ms. -/
def host_with (t x y button : Int) : Host :=
  { time_ms := t
    cursor := (x, y)
    mouse_global := (x, y)
    left_mouse_down := button
    screen_size := (400, 400)
    roll_ratio := 0
    pitch_ratio := 0 }

/-- The state after enabling yoke control on a 400 x 400 screen and one tick
with the button held at `(100, 100)`: rudder capture with anchor `(100, 100)`. -/
def captured_state : State :=
  run (initial_state default_config)
    [Event.toggle XPLMCommandPhase.xplm_CommandBegin (host_with 0 200 200 0),
     Event.tick (host_with 20 100 100 1)]

/-- The default settings with a negative keyboard rudder step
(`rudder_dfl_speed = -0.5` in the settings file). -/
def negative_keyboard_config : Config :=
  { default_config with kbd_rudder_speed := -1 / 2 }

/-- A RudderRight key press held for `n` further callbacks: one "begin"
followed by `n` "continue" phases. -/
def hold_right (h : Host) (n : Nat) : List Event :=
  Event.rudder_right XPLMCommandPhase.xplm_CommandBegin h
    :: List.replicate n (Event.rudder_right XPLMCommandPhase.xplm_CommandContinue h)

/-- A RudderLeft key press held for `n` further callbacks: one "begin"
followed by `n` "continue" phases. -/
def hold_left (h : Host) (n : Nat) : List Event :=
  Event.rudder_left XPLMCommandPhase.xplm_CommandBegin h
    :: List.replicate n (Event.rudder_left XPLMCommandPhase.xplm_CommandContinue h)

/-- The return-to-center step as the specification words it: toward `0` by
`dt * s`, `max(0, yaw - dt*s)` when positive and `min(0, yaw + dt*s)` when
negative; a yaw of `0` stays. -/
def decay_spec (yaw s dt : ℚ) : ℚ :=
  if 0 < yaw then max 0 (yaw - dt * s)
  else if yaw < 0 then min 0 (yaw + dt * s)
  else yaw

/-- The state after start-up with default settings, but with the rudder at
`2/5`. -/
def deflected_state : State :=
  { initial_state default_config with yaw_ratio := 2 / 5 }

/-- A key tapped twice while yoke control is disabled (default settings):
RudderRight pressed at 0 ms, released at 1000 ms, one frame tick at 1010 ms,
RudderRight pressed again at 1020 ms. -/
def double_tap : List Event :=
  [Event.rudder_right XPLMCommandPhase.xplm_CommandBegin (host_at 0),
   Event.rudder_right XPLMCommandPhase.xplm_CommandEnd (host_at 1000),
   Event.tick (host_at 1010),
   Event.rudder_right XPLMCommandPhase.xplm_CommandBegin (host_at 1020)]

/-- Rudder capture is only ever flagged while yoke control is enabled. -/
def capture_only_when_enabled (s : State) : Prop :=
  s.yoke_control_enabled = 0 → s.rudder_control = 0

/-- Scenario step 1: ToggleControl "begin" in state `s0`. -/
def after_enable (s0 : State) (h1 : Host) : State :=
  (toggle_yoke_control_cb s0 XPLMCommandPhase.xplm_CommandBegin h1).state

/-- Scenario step 2: a following tick, host `h2`. -/
def after_press (s0 : State) (h1 h2 : Host) : State :=
  (loop_cb (after_enable s0 h1) h2).state

/-- Scenario step 3: a following tick, host `h3`. -/
def after_release (s0 : State) (h1 h2 h3 : Host) : State :=
  (loop_cb (after_press s0 h1 h2) h3).state

/-- Scenario step 4: a second ToggleControl "begin", host `h4`. -/
def after_disable (s0 : State) (h1 h2 h3 h4 : Host) : State :=
  (toggle_yoke_control_cb (after_release s0 h1 h2 h3) XPLMCommandPhase.xplm_CommandBegin h4).state

/-- The default settings with the "Rudder Center" menu option switched off. -/
def no_return_config : Config :=
  { default_config with rudder_return := 0 }

/-- The state after start-up with "Rudder Center" off and one RudderRight
"begin": control disabled, yaw `3/20`. -/
def keyed_state : State :=
  run (initial_state no_return_config)
    [Event.rudder_right XPLMCommandPhase.xplm_CommandBegin (host_at 0)]

/-- The state some frame ticks after the scenario: the hosts of `ticks`, one
tick each, from the state after scenario step 4. -/
def after_ticks (s0 : State) (h1 h2 h3 h4 : Host) (ticks : List Host) : State :=
  run (after_disable s0 h1 h2 h3 h4) (ticks.map Event.tick)

/-- The default settings with a negative rudder return speed
(`rudder_return_speed = -2` in the settings file). -/
def negative_return_config : Config :=
  { default_config with rudder_ret_spd := -2 }

/-- A key tap while yoke control is disabled, the release and the next frame
tick carrying the given clock readings. -/
def tap_then_tick (release_ms tick_ms : Int) : List Event :=
  [Event.rudder_right XPLMCommandPhase.xplm_CommandBegin (host_at 0),
   Event.rudder_right XPLMCommandPhase.xplm_CommandEnd (host_at release_ms),
   Event.tick (host_at tick_ms)]

/-- The key sequence of the stuck keyboard flag, default settings on a
400 x 400 screen: ToggleControl "begin"; RudderRight "begin"; a tick with the
mouse button held at `(100, 100)`; a tick with the button held and the pointer
at `(150, 100)`; RudderRight "end"; a tick with the button released. -/
def stuck_flag_events : List Event :=
  [Event.toggle XPLMCommandPhase.xplm_CommandBegin (host_with 0 200 200 0),
   Event.rudder_right XPLMCommandPhase.xplm_CommandBegin (host_with 10 200 200 0),
   Event.tick (host_with 20 100 100 1),
   Event.tick (host_with 40 150 100 1),
   Event.rudder_right XPLMCommandPhase.xplm_CommandEnd (host_with 50 150 100 1),
   Event.tick (host_with 60 150 100 0)]

/-- The state the RudderRight "end" of `stuck_flag_events` arrives in: after
its first four events. -/
def state_before_key_release : State :=
  run (initial_state default_config) (stuck_flag_events.take 4)

/-- The state after all of `stuck_flag_events`. -/
def stuck_state : State :=
  run (initial_state default_config) stuck_flag_events

/-- Whether a rudder key is physically down after a sequence of events, given
whether one was down before: a RudderLeft or RudderRight "begin" presses it, an
"end" lets it go. -/
def rudder_key_down : Bool → List Event → Bool
  | down, [] => down
  | _, Event.rudder_left XPLMCommandPhase.xplm_CommandBegin _ :: es => rudder_key_down true es
  | _, Event.rudder_right XPLMCommandPhase.xplm_CommandBegin _ :: es => rudder_key_down true es
  | _, Event.rudder_left XPLMCommandPhase.xplm_CommandEnd _ :: es => rudder_key_down false es
  | _, Event.rudder_right XPLMCommandPhase.xplm_CommandEnd _ :: es => rudder_key_down false es
  | down, _ :: es => rudder_key_down down es


theorem round_half_even_bounds (t : ℚ) :
    (⌊t⌋ ≤ round_half_even t ∧ round_half_even t ≤ ⌊t⌋ + 1)
    ∧ |(round_half_even t : ℚ) - t| ≤ 1 / 2 := by
  have h1 : (⌊t⌋ : ℚ) ≤ t := Int.floor_le t
  have h2 : t < (⌊t⌋ : ℚ) + 1 := Int.lt_floor_add_one t
  unfold round_half_even
  split_ifs with ha hb hc
  · refine ⟨⟨le_refl _, by omega⟩, ?_⟩
    rw [abs_le]; constructor <;> linarith
  · refine ⟨⟨by omega, le_refl _⟩, ?_⟩
    push_cast
    rw [abs_le]; constructor <;> linarith
  · refine ⟨⟨le_refl _, by omega⟩, ?_⟩
    rw [abs_le]; constructor <;> linarith
  · refine ⟨⟨by omega, le_refl _⟩, ?_⟩
    push_cast
    rw [abs_le]; constructor <;> linarith

theorem round_half_even_intCast (n : Int) : round_half_even (n : ℚ) = n := by
  unfold round_half_even
  rw [Int.floor_intCast, sub_self, if_pos (by norm_num)]

theorem round_half_even_of_near (t : ℚ) (n : Int) (h : |t - n| < 1 / 2) :
    round_half_even t = n := by
  rw [abs_lt] at h
  have hb := (round_half_even_bounds t).2
  rw [abs_le] at hb
  have h3 : ((round_half_even t : Int) : ℚ) - (n : ℚ) < 1 := by linarith [hb.2, h.2]
  have h4 : (-1 : ℚ) < ((round_half_even t : Int) : ℚ) - (n : ℚ) := by linarith [hb.1, h.1]
  have h5 : round_half_even t - n < 1 := by exact_mod_cast h3
  have h6 : -1 < round_half_even t - n := by exact_mod_cast h4
  omega

theorem round_half_even_mono (s t : ℚ) (h : s ≤ t) : round_half_even s ≤ round_half_even t := by
  have hf : ⌊s⌋ ≤ ⌊t⌋ := Int.floor_mono h
  obtain ⟨⟨s1, s2⟩, _⟩ := round_half_even_bounds s
  obtain ⟨⟨t1, t2⟩, _⟩ := round_half_even_bounds t
  rcases lt_or_eq_of_le hf with hlt | heq
  · omega
  · unfold round_half_even
    rw [heq]
    have hst : s - (⌊t⌋ : ℚ) ≤ t - (⌊t⌋ : ℚ) := by linarith
    split_ifs <;> first | omega | (exfalso; linarith)

theorem round_half_even_neg (t : ℚ) : round_half_even (-t) = -round_half_even t := by
  have h1 : (⌊t⌋ : ℚ) ≤ t := Int.floor_le t
  have h2 : t < (⌊t⌋ : ℚ) + 1 := Int.lt_floor_add_one t
  by_cases hi : t = (⌊t⌋ : ℚ)
  · rw [hi, ← Int.cast_neg, round_half_even_intCast, round_half_even_intCast]
  · have hlt : (⌊t⌋ : ℚ) < t := lt_of_le_of_ne h1 (Ne.symm hi)
    have hfl : ⌊-t⌋ = -⌊t⌋ - 1 := by
      rw [Int.floor_eq_iff]
      push_cast
      constructor <;> linarith
    unfold round_half_even
    rw [hfl]
    push_cast
    split_ifs <;> first | omega | (exfalso; linarith)

theorem log_two_eq (q : ℚ) (k : Int) (h1 : (2 : ℚ) ^ k ≤ q) (h2 : q < (2 : ℚ) ^ (k + 1)) :
    Int.log 2 q = k := by
  have h0 : 0 < q := lt_of_lt_of_le (by positivity) h1
  have ha : k ≤ Int.log 2 q := by
    rw [← Int.zpow_le_iff_le_log (by norm_num) h0]; exact_mod_cast h1
  have hb : Int.log 2 q < k + 1 := by
    rw [← Int.lt_zpow_iff_log_lt (by norm_num) h0]; exact_mod_cast h2
  omega

theorem log_two_bounds (q : ℚ) (h0 : 0 < q) :
    (2 : ℚ) ^ Int.log 2 q ≤ q ∧ q < (2 : ℚ) ^ (Int.log 2 q + 1) := by
  constructor
  · exact_mod_cast Int.zpow_log_le_self (b := 2) (by norm_num) h0
  · exact_mod_cast Int.lt_zpow_succ_log_self (b := 2) (by norm_num) q

theorem fl32_zero : fl32 0 = 0 := by
  unfold fl32
  rw [zero_div]
  have : round_half_even (0 : ℚ) = 0 := by
    have := round_half_even_intCast 0
    simpa using this
  rw [this]; simp

theorem fl32_neg (q : ℚ) : fl32 (-q) = -fl32 q := by
  unfold fl32
  rw [abs_neg, neg_div, round_half_even_neg]
  push_cast
  ring

/-- Evaluation of `fl32` away from ties: in the binade `[2^k, 2^(k+1))` the
result is the integer nearest to `q / 2^(k-23)`, scaled back. -/
theorem fl32_eq_of_near (q : ℚ) (k n : Int) (h1 : (2 : ℚ) ^ k ≤ |q|)
    (h2 : |q| < (2 : ℚ) ^ (k + 1)) (h3 : |q / (2 : ℚ) ^ (k - 23) - n| < 1 / 2) :
    fl32 q = (n : ℚ) * (2 : ℚ) ^ (k - 23) := by
  unfold fl32
  rw [log_two_eq |q| k h1 h2, round_half_even_of_near _ n h3]

/-- A value that is a whole number of units in the last place is not changed. -/
theorem fl32_of_exact (q : ℚ) (n : Int)
    (h : q / (2 : ℚ) ^ (Int.log 2 |q| - 23) = n) : fl32 q = q := by
  have hp : (2 : ℚ) ^ (Int.log 2 |q| - 23) ≠ 0 := by positivity
  unfold fl32
  rw [h, round_half_even_intCast, ← h, div_mul_cancel₀ _ hp]

/-- Integers of magnitude at most `2^24` are binary32 values. -/
theorem fl32_intCast (x : Int) (hx : |x| ≤ 2 ^ 24) : fl32 (x : ℚ) = x := by
  by_cases h0 : x = 0
  · rw [h0]; simpa using fl32_zero
  have hpos : (0 : ℚ) < |(x : ℚ)| := abs_pos.mpr (by exact_mod_cast h0)
  obtain ⟨b1, b2⟩ := log_two_bounds |(x : ℚ)| hpos
  have hxq : |(x : ℚ)| ≤ (2 : ℚ) ^ (24 : ℤ) := by
    have : ((|x| : Int) : ℚ) ≤ ((2 ^ 24 : Int) : ℚ) := by exact_mod_cast hx
    rw [Int.cast_abs] at this
    norm_num at this ⊢
    exact this
  have hL : Int.log 2 |(x : ℚ)| ≤ 24 := by
    by_contra hc
    have h25 : (25 : ℤ) ≤ Int.log 2 |(x : ℚ)| := by omega
    have : (2 : ℚ) ^ (25 : ℤ) ≤ (2 : ℚ) ^ Int.log 2 |(x : ℚ)| :=
      zpow_le_zpow_right₀ (by norm_num) h25
    have h24 : (2 : ℚ) ^ (24 : ℤ) < (2 : ℚ) ^ (25 : ℤ) := by norm_num
    linarith
  rcases lt_or_eq_of_le hL with hlt | heq
  · have hnn : 0 ≤ 23 - Int.log 2 |(x : ℚ)| := by omega
    obtain ⟨m, hm⟩ := Int.eq_ofNat_of_zero_le hnn
    apply fl32_of_exact _ (x * 2 ^ m)
    have he : Int.log 2 |(x : ℚ)| - 23 = -(m : ℤ) := by omega
    rw [he, zpow_neg, zpow_natCast, div_inv_eq_mul]
    push_cast
    ring
  · -- only `|x| = 2^24` has logarithm 24
    have hx24 : |(x : ℚ)| = (2 : ℚ) ^ (24 : ℤ) := by
      rw [heq] at b1
      exact le_antisymm hxq b1
    apply fl32_of_exact _ (x / 2)
    rw [heq]
    have hdvd : (2 : Int) ∣ x := by
      have hax : |x| = 2 ^ 24 := by
        have : ((|x| : Int) : ℚ) = ((2 ^ 24 : Int) : ℚ) := by
          rw [Int.cast_abs]; norm_num at hx24 ⊢; exact hx24
        exact_mod_cast this
      have : (2 : Int) ∣ |x| := by rw [hax]; norm_num
      exact (dvd_abs 2 x).mp this
    obtain ⟨c, hc⟩ := hdvd
    rw [hc]
    norm_num

theorem fl32_two_mul (q : ℚ) : fl32 (2 * q) = 2 * fl32 q := by
  by_cases h0 : q = 0
  · rw [h0, mul_zero, fl32_zero, mul_zero]
  have hpos : (0 : ℚ) < |q| := abs_pos.mpr h0
  obtain ⟨b1, b2⟩ := log_two_bounds |q| hpos
  have hlog : Int.log 2 |2 * q| = Int.log 2 |q| + 1 := by
    apply log_two_eq
    · rw [abs_mul, abs_two, zpow_add_one₀ (by norm_num)]; linarith
    · rw [abs_mul, abs_two, zpow_add_one₀ (by norm_num : (2 : ℚ) ≠ 0) (Int.log 2 |q| + 1)]
      linarith
  have hp : (2 : ℚ) ^ (Int.log 2 |q| - 23) ≠ 0 := by positivity
  unfold fl32
  rw [hlog]
  have he : Int.log 2 |q| + 1 - 23 = (Int.log 2 |q| - 23) + 1 := by ring
  rw [he, zpow_add_one₀ (by norm_num : (2 : ℚ) ≠ 0)]
  have ht : 2 * q / ((2 : ℚ) ^ (Int.log 2 |q| - 23) * 2) = q / (2 : ℚ) ^ (Int.log 2 |q| - 23) := by
    field_simp
    ring
  rw [ht]
  ring

theorem fl32_nonneg (q : ℚ) (h : 0 ≤ q) : 0 ≤ fl32 q := by
  unfold fl32
  have hp : (0 : ℚ) < (2 : ℚ) ^ (Int.log 2 |q| - 23) := by positivity
  have ht : (0 : ℚ) ≤ q / (2 : ℚ) ^ (Int.log 2 |q| - 23) := div_nonneg h (le_of_lt hp)
  have hr : round_half_even (0 : ℚ) ≤ round_half_even (q / (2 : ℚ) ^ (Int.log 2 |q| - 23)) :=
    round_half_even_mono _ _ ht
  have h00 : round_half_even (0 : ℚ) = 0 := by
    have := round_half_even_intCast 0
    simpa using this
  rw [h00] at hr
  have : (0 : ℚ) ≤ (round_half_even (q / (2 : ℚ) ^ (Int.log 2 |q| - 23)) : ℚ) := by
    exact_mod_cast hr
  positivity

/-- A positive value rounds to something between the ends of its binade. -/
theorem fl32_binade (q : ℚ) (h0 : 0 < q) :
    (2 : ℚ) ^ Int.log 2 q ≤ fl32 q ∧ fl32 q ≤ (2 : ℚ) ^ (Int.log 2 q + 1) := by
  obtain ⟨b1, b2⟩ := log_two_bounds q h0
  have hp : (0 : ℚ) < (2 : ℚ) ^ (Int.log 2 q - 23) := by positivity
  have e1 : (2 : ℚ) ^ Int.log 2 q = ((2 ^ 23 : Int) : ℚ) * (2 : ℚ) ^ (Int.log 2 q - 23) := by
    rw [zpow_sub₀ (by norm_num : (2 : ℚ) ≠ 0)]
    norm_num
    field_simp
  have e2 : (2 : ℚ) ^ (Int.log 2 q + 1)
      = ((2 ^ 24 : Int) : ℚ) * (2 : ℚ) ^ (Int.log 2 q - 23) := by
    rw [zpow_add_one₀ (by norm_num : (2 : ℚ) ≠ 0), zpow_sub₀ (by norm_num : (2 : ℚ) ≠ 0)]
    norm_num
    field_simp
    ring
  have t1 : ((2 ^ 23 : Int) : ℚ) ≤ q / (2 : ℚ) ^ (Int.log 2 q - 23) := by
    rw [le_div_iff₀ hp, ← e1]; exact b1
  have t2 : q / (2 : ℚ) ^ (Int.log 2 q - 23) ≤ ((2 ^ 24 : Int) : ℚ) := by
    rw [div_le_iff₀ hp, ← e2]; exact le_of_lt b2
  have r1 := round_half_even_mono _ _ t1
  have r2 := round_half_even_mono _ _ t2
  rw [round_half_even_intCast] at r1 r2
  have r1q : ((2 ^ 23 : Int) : ℚ) ≤ (round_half_even (q / (2 : ℚ) ^ (Int.log 2 q - 23)) : ℚ) := by
    exact_mod_cast r1
  have r2q : (round_half_even (q / (2 : ℚ) ^ (Int.log 2 q - 23)) : ℚ) ≤ ((2 ^ 24 : Int) : ℚ) := by
    exact_mod_cast r2
  unfold fl32
  rw [abs_of_pos h0, e1, e2]
  exact ⟨mul_le_mul_of_nonneg_right r1q (le_of_lt hp), mul_le_mul_of_nonneg_right r2q (le_of_lt hp)⟩

theorem fl32_mono_of_pos (a b : ℚ) (ha : 0 < a) (hab : a ≤ b) : fl32 a ≤ fl32 b := by
  have hb : 0 < b := lt_of_lt_of_le ha hab
  have hl : Int.log 2 a ≤ Int.log 2 b := Int.log_mono_right ha hab
  rcases lt_or_eq_of_le hl with hlt | heq
  · have h1 := (fl32_binade a ha).2
    have h2 := (fl32_binade b hb).1
    have h3 : (2 : ℚ) ^ (Int.log 2 a + 1) ≤ (2 : ℚ) ^ Int.log 2 b :=
      zpow_le_zpow_right₀ (by norm_num) (by omega)
    linarith
  · have hp : (0 : ℚ) < (2 : ℚ) ^ (Int.log 2 b - 23) := by positivity
    unfold fl32
    rw [abs_of_pos ha, abs_of_pos hb, heq]
    have ht : a / (2 : ℚ) ^ (Int.log 2 b - 23) ≤ b / (2 : ℚ) ^ (Int.log 2 b - 23) :=
      div_le_div_of_nonneg_right hab (le_of_lt hp)
    have hr := round_half_even_mono _ _ ht
    have hrq : (round_half_even (a / (2 : ℚ) ^ (Int.log 2 b - 23)) : ℚ)
        ≤ (round_half_even (b / (2 : ℚ) ^ (Int.log 2 b - 23)) : ℚ) := by exact_mod_cast hr
    exact mul_le_mul_of_nonneg_right hrq (le_of_lt hp)

/-- Rounding to binary32 is monotone. -/
theorem fl32_mono (a b : ℚ) (hab : a ≤ b) : fl32 a ≤ fl32 b := by
  rcases lt_trichotomy a 0 with ha | ha | ha
  · rcases lt_or_le b 0 with hb | hb
    · have h := fl32_mono_of_pos (-b) (-a) (by linarith) (by linarith)
      rw [fl32_neg, fl32_neg] at h
      linarith
    · have h1 := fl32_nonneg (-a) (by linarith)
      rw [fl32_neg] at h1
      have h2 := fl32_nonneg b hb
      linarith
  · rw [ha, fl32_zero]
    exact fl32_nonneg b (by linarith)
  · exact fl32_mono_of_pos a b ha hab

/-- The relative error of rounding to binary32 is at most `2^-24`. -/
theorem fl32_error (q : ℚ) : |fl32 q - q| ≤ |q| / 16777216 := by
  by_cases h0 : q = 0
  · rw [h0, fl32_zero]; simp
  have hpos : (0 : ℚ) < |q| := abs_pos.mpr h0
  obtain ⟨b1, _⟩ := log_two_bounds |q| hpos
  have hp : (0 : ℚ) < (2 : ℚ) ^ (Int.log 2 |q| - 23) := by positivity
  have e1 : (2 : ℚ) ^ Int.log 2 |q| = 8388608 * (2 : ℚ) ^ (Int.log 2 |q| - 23) := by
    rw [zpow_sub₀ (by norm_num : (2 : ℚ) ≠ 0)]
    norm_num
    field_simp
  have hr := (round_half_even_bounds (q / (2 : ℚ) ^ (Int.log 2 |q| - 23))).2
  have hq : q = q / (2 : ℚ) ^ (Int.log 2 |q| - 23) * (2 : ℚ) ^ (Int.log 2 |q| - 23) :=
    (div_mul_cancel₀ _ (ne_of_gt hp)).symm
  have hd : fl32 q - q
      = ((round_half_even (q / (2 : ℚ) ^ (Int.log 2 |q| - 23)) : ℚ)
          - q / (2 : ℚ) ^ (Int.log 2 |q| - 23)) * (2 : ℚ) ^ (Int.log 2 |q| - 23) := by
    unfold fl32
    rw [sub_mul, div_mul_cancel₀ _ (ne_of_gt hp)]
  rw [hd, abs_mul, abs_of_pos hp]
  have : |(round_half_even (q / (2 : ℚ) ^ (Int.log 2 |q| - 23)) : ℚ)
      - q / (2 : ℚ) ^ (Int.log 2 |q| - 23)| * (2 : ℚ) ^ (Int.log 2 |q| - 23)
      ≤ 1 / 2 * (2 : ℚ) ^ (Int.log 2 |q| - 23) :=
    mul_le_mul_of_nonneg_right hr (le_of_lt hp)
  rw [e1] at b1
  linarith

/-! ## The axis expressions of `loop_cb` in binary32 -/

theorem fl32_one : fl32 1 = 1 := by
  have := fl32_intCast 1 (by norm_num)
  simpa using this

theorem fl32_two : fl32 2 = 2 := by
  have := fl32_intCast 2 (by norm_num)
  simpa using this

theorem fl32_half : fl32 (1 / 2) = 1 / 2 := by
  have h := fl32_two_mul (1 / 2)
  norm_num at h
  rw [fl32_one] at h
  linarith

/-- A positive value in the binade `[2^k, 2^(k+1))` that is a whole number of
units `2^(k-23)` is a binary32 value. -/
theorem fl32_exact_pos (q : ℚ) (k n : Int) (h1 : (2 : ℚ) ^ k ≤ q) (h2 : q < (2 : ℚ) ^ (k + 1))
    (h3 : q = (n : ℚ) * (2 : ℚ) ^ (k - 23)) : fl32 q = q := by
  have h0 : 0 < q := lt_of_lt_of_le (by positivity) h1
  have hp : (2 : ℚ) ^ (k - 23) ≠ 0 := by positivity
  have hlog : Int.log 2 |q| = k := by
    rw [abs_of_pos h0]; exact log_two_eq q k h1 h2
  apply fl32_of_exact q n
  rw [hlog]
  rw [h3, mul_div_assoc, div_self hp, mul_one]

/-- The rounding error of the part of both axis expressions up to the doubling:
for an exact quotient `a` in `[0, 1]`, `fl(2 * fl(a))` is within `4 * 2^-24` of
`2 * a` and lies in `[0, 2]`. -/
theorem doubled_ratio_error (a : ℚ) (ha : 0 ≤ a ∧ a ≤ 1) :
    |fl32 (2 * fl32 a) - 2 * a| ≤ 4 / 16777216
    ∧ 0 ≤ fl32 (2 * fl32 a) ∧ fl32 (2 * fl32 a) ≤ 2 := by
  have b0 : 0 ≤ fl32 a := fl32_nonneg a ha.1
  have b1 : fl32 a ≤ 1 := by
    have := fl32_mono a 1 ha.2
    rwa [fl32_one] at this
  have eb := fl32_error a
  rw [abs_of_nonneg ha.1] at eb
  have ec := fl32_error (2 * fl32 a)
  rw [abs_of_nonneg (by linarith : (0 : ℚ) ≤ 2 * fl32 a)] at ec
  have c0 : 0 ≤ fl32 (2 * fl32 a) := fl32_nonneg _ (by linarith)
  have c2 : fl32 (2 * fl32 a) ≤ 2 := by
    have := fl32_mono (2 * fl32 a) 2 (by linarith)
    rwa [fl32_two] at this
  refine ⟨?_, c0, c2⟩
  rw [abs_le] at eb ec ⊢
  constructor <;> linarith [eb.1, eb.2, ec.1, ec.2, ha.1, ha.2, b0, b1]

/-- On a screen of at most `2^24` pixels the raw roll of an in-bounds position
is within `5 * 2^-24` of the exact `2*(x/W) - 1`. -/
theorem yoke_roll_error (x W : Int) (hW : 0 < W) (hW24 : W ≤ 2 ^ 24) (hx : 0 ≤ x ∧ x ≤ W) :
    |yoke_roll x W - roll_spec x W| ≤ 5 / 16777216 := by
  have hxe : fl32 (x : ℚ) = x := fl32_intCast x (by rw [abs_of_nonneg hx.1]; omega)
  have hWe : fl32 (W : ℚ) = W := fl32_intCast W (by rw [abs_of_pos hW]; omega)
  have hWq : (0 : ℚ) < (W : ℚ) := by exact_mod_cast hW
  have ha : (0 : ℚ) ≤ (x : ℚ) / (W : ℚ) ∧ (x : ℚ) / (W : ℚ) ≤ 1 :=
    ⟨div_nonneg (by exact_mod_cast hx.1) (le_of_lt hWq),
      (div_le_one hWq).mpr (by exact_mod_cast hx.2)⟩
  obtain ⟨e1, c0, c2⟩ := doubled_ratio_error _ ha
  have ed := fl32_error (fl32 (2 * fl32 ((x : ℚ) / (W : ℚ))) - 1)
  have hc1 : |fl32 (2 * fl32 ((x : ℚ) / (W : ℚ))) - 1| ≤ 1 := by
    rw [abs_le]; constructor <;> linarith
  unfold yoke_roll roll_spec
  rw [hxe, hWe]
  rw [abs_le] at e1 ed ⊢
  constructor <;> linarith [e1.1, e1.2, ed.1, ed.2, hc1]

/-- On a screen of at most `2^24` pixels the raw pitch of an in-bounds position
is within `5 * 2^-24` of the exact `1 - 2*(y/H)`. -/
theorem yoke_pitch_error (y H : Int) (hH : 0 < H) (hH24 : H ≤ 2 ^ 24) (hy : 0 ≤ y ∧ y ≤ H) :
    |yoke_pitch y H - pitch_spec y H| ≤ 5 / 16777216 := by
  have hye : fl32 (y : ℚ) = y := fl32_intCast y (by rw [abs_of_nonneg hy.1]; omega)
  have hHe : fl32 (H : ℚ) = H := fl32_intCast H (by rw [abs_of_pos hH]; omega)
  have hHq : (0 : ℚ) < (H : ℚ) := by exact_mod_cast hH
  have ha : (0 : ℚ) ≤ (y : ℚ) / (H : ℚ) ∧ (y : ℚ) / (H : ℚ) ≤ 1 :=
    ⟨div_nonneg (by exact_mod_cast hy.1) (le_of_lt hHq),
      (div_le_one hHq).mpr (by exact_mod_cast hy.2)⟩
  obtain ⟨e1, c0, c2⟩ := doubled_ratio_error _ ha
  have ed := fl32_error (1 - fl32 (2 * fl32 ((y : ℚ) / (H : ℚ))))
  have hc1 : |1 - fl32 (2 * fl32 ((y : ℚ) / (H : ℚ)))| ≤ 1 := by
    rw [abs_le]; constructor <;> linarith
  unfold yoke_pitch pitch_spec
  rw [hye, hHe]
  rw [abs_le] at e1 ed ⊢
  constructor <;> linarith [e1.1, e1.2, ed.1, ed.2, hc1]


/-! ## The axis expressions at some pointer positions on a 400 x 400 screen -/

/-- Evaluation of `fl32` at a positive value away from ties. -/
theorem fl32_eq_of_near_pos (q : ℚ) (k n : Int) (h1 : (2 : ℚ) ^ k ≤ q)
    (h2 : q < (2 : ℚ) ^ (k + 1)) (h3 : (n : ℚ) - 1 / 2 < q / (2 : ℚ) ^ (k - 23))
    (h4 : q / (2 : ℚ) ^ (k - 23) < (n : ℚ) + 1 / 2) :
    fl32 q = (n : ℚ) * (2 : ℚ) ^ (k - 23) := by
  have h0 : 0 < q := lt_of_lt_of_le (by positivity) h1
  apply fl32_eq_of_near q k n
  · rw [abs_of_pos h0]; exact h1
  · rw [abs_of_pos h0]; exact h2
  · rw [abs_lt]; constructor <;> linarith

theorem yoke_roll_eval (x W : Int) (a b r : ℚ) (hx : fl32 (x : ℚ) = x) (hW : fl32 (W : ℚ) = W)
    (ha : fl32 ((x : ℚ) / (W : ℚ)) = a) (hb : fl32 (2 * a) = b) (hr : fl32 (b - 1) = r) :
    yoke_roll x W = r := by
  unfold yoke_roll
  rw [hx, hW, ha, hb, hr]

theorem yoke_pitch_eval (y H : Int) (a b r : ℚ) (hy : fl32 (y : ℚ) = y) (hH : fl32 (H : ℚ) = H)
    (ha : fl32 ((y : ℚ) / (H : ℚ)) = a) (hb : fl32 (2 * a) = b) (hr : fl32 (1 - b) = r) :
    yoke_pitch y H = r := by
  unfold yoke_pitch
  rw [hy, hH, ha, hb, hr]

theorem fl32_quarter : fl32 (1 / 4) = 1 / 4 :=
  fl32_exact_pos _ (-2) 8388608 (by norm_num) (by norm_num) (by norm_num)

theorem fl32_three_quarters : fl32 (3 / 4) = 3 / 4 :=
  fl32_exact_pos _ (-1) 12582912 (by norm_num) (by norm_num) (by norm_num)

theorem fl32_three_halves : fl32 (3 / 2) = 3 / 2 :=
  fl32_exact_pos _ 0 12582912 (by norm_num) (by norm_num) (by norm_num)

/-- The quotient `0.475`, which is `190/400` and `912/1920` and `513/1080`,
rounds down to `15938355 * 2^-25`. -/
theorem fl32_nineteen_fortieths : fl32 (19 / 40) = 15938355 / 33554432 := by
  rw [fl32_eq_of_near_pos (19 / 40) (-2) 15938355 (by norm_num) (by norm_num) (by norm_num)
    (by norm_num)]
  norm_num

/-- The quotient `0.525`, which is `210/400`, rounds down to `8808038 * 2^-24`. -/
theorem fl32_twentyone_fortieths : fl32 (21 / 40) = 8808038 / 16777216 := by
  rw [fl32_eq_of_near_pos (21 / 40) (-1) 8808038 (by norm_num) (by norm_num) (by norm_num)
    (by norm_num)]
  norm_num

theorem yoke_roll_100_400 : yoke_roll 100 400 = -1 / 2 := by
  apply yoke_roll_eval 100 400 (1 / 4) (1 / 2) (-1 / 2)
  · exact fl32_intCast 100 (by norm_num)
  · exact fl32_intCast 400 (by norm_num)
  · norm_num; exact fl32_quarter
  · norm_num; exact fl32_half
  · norm_num; rw [fl32_neg, fl32_half]

theorem yoke_pitch_100_400 : yoke_pitch 100 400 = 1 / 2 := by
  apply yoke_pitch_eval 100 400 (1 / 4) (1 / 2) (1 / 2)
  · exact fl32_intCast 100 (by norm_num)
  · exact fl32_intCast 400 (by norm_num)
  · norm_num; exact fl32_quarter
  · norm_num; exact fl32_half
  · norm_num; exact fl32_half

theorem yoke_roll_300_400 : yoke_roll 300 400 = 1 / 2 := by
  apply yoke_roll_eval 300 400 (3 / 4) (3 / 2) (1 / 2)
  · exact fl32_intCast 300 (by norm_num)
  · exact fl32_intCast 400 (by norm_num)
  · norm_num; exact fl32_three_quarters
  · norm_num; exact fl32_three_halves
  · norm_num; exact fl32_half

theorem yoke_pitch_300_400 : yoke_pitch 300 400 = -1 / 2 := by
  apply yoke_pitch_eval 300 400 (3 / 4) (3 / 2) (-1 / 2)
  · exact fl32_intCast 300 (by norm_num)
  · exact fl32_intCast 400 (by norm_num)
  · norm_num; exact fl32_three_quarters
  · norm_num; exact fl32_three_halves
  · norm_num; rw [fl32_neg, fl32_half]

/-- At `x = 210` of `400` the raw roll is `838860 * 2^-24`, just below `0.05`. -/
theorem yoke_roll_210_400 : yoke_roll 210 400 = 838860 / 16777216 := by
  apply yoke_roll_eval 210 400 (8808038 / 16777216) (8808038 / 8388608) (838860 / 16777216)
  · exact fl32_intCast 210 (by norm_num)
  · exact fl32_intCast 400 (by norm_num)
  · norm_num; rw [fl32_twentyone_fortieths]; norm_num
  · norm_num
    exact fl32_exact_pos _ 0 8808038 (by norm_num) (by norm_num) (by norm_num)
  · norm_num
    exact fl32_exact_pos _ (-5) 13421760 (by norm_num) (by norm_num) (by norm_num)

/-- At `y = 190` of `400` the raw pitch is `838861 * 2^-24`, just above both
`0.05` and the binary32 value nearest to it. -/
theorem yoke_pitch_190_400 : yoke_pitch 190 400 = 838861 / 16777216 := by
  apply yoke_pitch_eval 190 400 (15938355 / 33554432) (15938355 / 16777216) (838861 / 16777216)
  · exact fl32_intCast 190 (by norm_num)
  · exact fl32_intCast 400 (by norm_num)
  · norm_num; exact fl32_nineteen_fortieths
  · norm_num
    exact fl32_exact_pos _ (-1) 15938355 (by norm_num) (by norm_num) (by norm_num)
  · norm_num
    exact fl32_exact_pos _ (-5) 13421776 (by norm_num) (by norm_num) (by norm_num)

theorem capture_yaw_range (m_x anchor_x D : Int) (hD : D ≠ 0) :
    -1 ≤ capture_yaw m_x anchor_x D ∧ capture_yaw m_x anchor_x D ≤ 1 := by
  unfold capture_yaw
  simp only
  rcases lt_or_gt_of_ne hD with hneg | hpos
  · have hmin : min (max (m_x - anchor_x) (-D)) D = D := by
      apply min_eq_right
      have : D ≤ -D := by omega
      exact le_trans this (le_max_right _ _)
    have hq : (D : ℚ) ≠ 0 := by exact_mod_cast hD
    rw [hmin, div_self hq]
    norm_num
  · have hq : (0 : ℚ) < (D : ℚ) := by exact_mod_cast hpos
    have h1 : -D ≤ min (max (m_x - anchor_x) (-D)) D := by
      apply le_min (le_max_right _ _)
      omega
    have h2 : min (max (m_x - anchor_x) (-D)) D ≤ D := min_le_right _ _
    have h1q : -(D : ℚ) ≤ ((min (max (m_x - anchor_x) (-D)) D : Int) : ℚ) := by exact_mod_cast h1
    have h2q : ((min (max (m_x - anchor_x) (-D)) D : Int) : ℚ) ≤ (D : ℚ) := by exact_mod_cast h2
    constructor
    · rw [le_div_iff₀ hq]; linarith
    · rw [div_le_iff₀ hq]; linarith

theorem elapsed_nonneg (now last : Int) (ht : last ≤ now) :
    (0 : ℚ) ≤ ((now - last : Int) : ℚ) / 1000 := by
  have : (0 : ℚ) ≤ ((now - last : Int) : ℚ) := by
    exact_mod_cast (by omega : (0 : Int) ≤ now - last)
  positivity

theorem rudder_return_step_range (yaw spd : ℚ) (now last : Int)
    (hy : -1 ≤ yaw ∧ yaw ≤ 1) (hs : 0 ≤ spd) (ht : last ≤ now) :
    -1 ≤ rudder_return_step yaw spd now last ∧ rudder_return_step yaw spd now last ≤ 1 := by
  have hm : 0 ≤ ((now - last : Int) : ℚ) / 1000 * spd := mul_nonneg (elapsed_nonneg now last ht) hs
  unfold rudder_return_step
  simp only
  split_ifs with hpos
  · constructor
    · exact le_trans (by norm_num) (le_max_left _ _)
    · apply max_le (by norm_num); linarith [hy.2]
  · constructor
    · apply le_min (by norm_num); linarith [hy.1]
    · exact le_trans (min_le_left _ _) (by norm_num)

/-! ## What `controlling_rudder` leaves alone -/

theorem controlling_rudder_frame (s : State) (h : Host) (x y : Int) :
    (controlling_rudder s h x y).state.yaw_ratio = s.yaw_ratio
    ∧ (controlling_rudder s h x y).state.kbd_rudder_speed = s.kbd_rudder_speed
    ∧ (controlling_rudder s h x y).state.rudder_ret_spd = s.rudder_ret_spd
    ∧ (controlling_rudder s h x y).state.rudder_defl_dist = s.rudder_defl_dist
    ∧ (controlling_rudder s h x y).state._last_time = s._last_time
    ∧ (controlling_rudder s h x y).state.kbd_rudder_on = s.kbd_rudder_on
    ∧ (controlling_rudder s h x y).state.rudder_return = s.rudder_return
    ∧ (controlling_rudder s h x y).state.yoke_control_enabled = s.yoke_control_enabled := by
  unfold controlling_rudder
  split_ifs <;> simp

theorem controlling_rudder_no_heading (s : State) (h : Host) (x y : Int) (v : ℚ) :
    Effect.set_heading v ∉ (controlling_rudder s h x y).effects := by
  unfold controlling_rudder change_cursor_bmp
  split_ifs <;> simp

/-! ## The five paths through `loop_cb` -/

theorem loop_cb_disabled_decay (s : State) (h : Host)
    (he : s.yoke_control_enabled = 0) (hd : s.yaw_ratio ≠ 0 ∧ s.rudder_return ≠ 0) :
    loop_cb s h =
      { state := { s with
          _last_time := h.time_ms,
          yaw_ratio := rudder_return_step s.yaw_ratio s.rudder_ret_spd h.time_ms s._last_time },
        effects := (if s.centre_control ≠ 0 then [Effect.set_roll 0, Effect.set_pitch 0] else [])
          ++ [Effect.set_heading
                (rudder_return_step s.yaw_ratio s.rudder_ret_spd h.time_ms s._last_time)],
        ret := if rudder_return_step s.yaw_ratio s.rudder_ret_spd h.time_ms s._last_time ≠ 0
          then -1 else 0 } := by
  unfold loop_cb
  rw [if_pos he]
  simp only
  rw [if_pos hd]

theorem loop_cb_disabled_idle (s : State) (h : Host)
    (he : s.yoke_control_enabled = 0) (hd : ¬ (s.yaw_ratio ≠ 0 ∧ s.rudder_return ≠ 0)) :
    loop_cb s h =
      { state := s,
        effects := if s.centre_control ≠ 0 then [Effect.set_roll 0, Effect.set_pitch 0] else [],
        ret := 0 } := by
  unfold loop_cb
  rw [if_pos he]
  simp only
  rw [if_neg hd]

theorem loop_cb_capture (s : State) (h : Host)
    (he : s.yoke_control_enabled ≠ 0)
    (hr : (controlling_rudder s h h.cursor.1 h.cursor.2).ret ≠ 0) :
    loop_cb s h =
      { state := { (controlling_rudder s h h.cursor.1 h.cursor.2).state with
          _last_time := h.time_ms,
          yaw_ratio := capture_yaw (controlling_rudder s h h.cursor.1 h.cursor.2).x
            (controlling_rudder s h h.cursor.1 h.cursor.2).state.cursor_pos.1
            (controlling_rudder s h h.cursor.1 h.cursor.2).state.rudder_defl_dist },
        effects := (controlling_rudder s h h.cursor.1 h.cursor.2).effects
          ++ [Effect.set_heading
                (capture_yaw (controlling_rudder s h h.cursor.1 h.cursor.2).x
                  (controlling_rudder s h h.cursor.1 h.cursor.2).state.cursor_pos.1
                  (controlling_rudder s h h.cursor.1 h.cursor.2).state.rudder_defl_dist)],
        ret := -1 } := by
  unfold loop_cb
  rw [if_neg he]
  simp only
  rw [if_pos hr]

theorem loop_cb_yoke_decay (s : State) (h : Host)
    (he : s.yoke_control_enabled ≠ 0)
    (hr : (controlling_rudder s h h.cursor.1 h.cursor.2).ret = 0)
    (hd : (controlling_rudder s h h.cursor.1 h.cursor.2).state.yaw_ratio ≠ 0
      ∧ (controlling_rudder s h h.cursor.1 h.cursor.2).state.rudder_return ≠ 0
      ∧ (controlling_rudder s h h.cursor.1 h.cursor.2).state.kbd_rudder_on = false) :
    loop_cb s h =
      { state := { (controlling_rudder s h h.cursor.1 h.cursor.2).state with
          _last_time := h.time_ms,
          yaw_ratio := rudder_return_step
            (controlling_rudder s h h.cursor.1 h.cursor.2).state.yaw_ratio
            (controlling_rudder s h h.cursor.1 h.cursor.2).state.rudder_ret_spd h.time_ms
            (controlling_rudder s h h.cursor.1 h.cursor.2).state._last_time },
        effects := (controlling_rudder s h h.cursor.1 h.cursor.2).effects
          ++ [Effect.set_roll (null_zone (controlling_rudder s h h.cursor.1 h.cursor.2).state.yoke_nz
                (yoke_roll (controlling_rudder s h h.cursor.1 h.cursor.2).x
                  (controlling_rudder s h h.cursor.1 h.cursor.2).state.screen_width)),
              Effect.set_pitch (null_zone (controlling_rudder s h h.cursor.1 h.cursor.2).state.yoke_nz
                (yoke_pitch (controlling_rudder s h h.cursor.1 h.cursor.2).y
                  (controlling_rudder s h h.cursor.1 h.cursor.2).state.screen_height))]
          ++ [Effect.set_heading
                (rudder_return_step
                  (controlling_rudder s h h.cursor.1 h.cursor.2).state.yaw_ratio
                  (controlling_rudder s h h.cursor.1 h.cursor.2).state.rudder_ret_spd h.time_ms
                  (controlling_rudder s h h.cursor.1 h.cursor.2).state._last_time)],
        ret := -1 } := by
  unfold loop_cb
  rw [if_neg he]
  simp only
  rw [if_neg (not_not.mpr hr), if_pos hd]

theorem loop_cb_yoke_idle (s : State) (h : Host)
    (he : s.yoke_control_enabled ≠ 0)
    (hr : (controlling_rudder s h h.cursor.1 h.cursor.2).ret = 0)
    (hd : ¬ ((controlling_rudder s h h.cursor.1 h.cursor.2).state.yaw_ratio ≠ 0
      ∧ (controlling_rudder s h h.cursor.1 h.cursor.2).state.rudder_return ≠ 0
      ∧ (controlling_rudder s h h.cursor.1 h.cursor.2).state.kbd_rudder_on = false)) :
    loop_cb s h =
      { state := (controlling_rudder s h h.cursor.1 h.cursor.2).state,
        effects := (controlling_rudder s h h.cursor.1 h.cursor.2).effects
          ++ [Effect.set_roll (null_zone (controlling_rudder s h h.cursor.1 h.cursor.2).state.yoke_nz
                (yoke_roll (controlling_rudder s h h.cursor.1 h.cursor.2).x
                  (controlling_rudder s h h.cursor.1 h.cursor.2).state.screen_width)),
              Effect.set_pitch (null_zone (controlling_rudder s h h.cursor.1 h.cursor.2).state.yoke_nz
                (yoke_pitch (controlling_rudder s h h.cursor.1 h.cursor.2).y
                  (controlling_rudder s h h.cursor.1 h.cursor.2).state.screen_height))],
        ret := -1 } := by
  unfold loop_cb
  rw [if_neg he]
  simp only
  rw [if_neg (not_not.mpr hr), if_neg hd]

/-! ## One callback keeps the yaw in range -/

theorem loop_cb_keeps_range (s : State) (h : Host)
    (hc : settings_in_range s) (hy : yaw_in_range s) (ht : s._last_time ≤ h.time_ms) :
    settings_in_range (loop_cb s h).state ∧ yaw_in_range (loop_cb s h).state
      ∧ (loop_cb s h).state._last_time ≤ h.time_ms
      ∧ heading_writes_in_range (loop_cb s h).effects := by
  obtain ⟨hspeed, hret, hD⟩ := hc
  obtain ⟨f1, f2, f3, f4, f5, f6, f7, f8⟩ := controlling_rudder_frame s h h.cursor.1 h.cursor.2
  have nh := controlling_rudder_no_heading s h h.cursor.1 h.cursor.2
  unfold settings_in_range yaw_in_range heading_writes_in_range at *
  by_cases he : s.yoke_control_enabled = 0
  · by_cases hd : s.yaw_ratio ≠ 0 ∧ s.rudder_return ≠ 0
    · have hr := rudder_return_step_range s.yaw_ratio s.rudder_ret_spd h.time_ms s._last_time
        hy hret ht
      rw [loop_cb_disabled_decay s h he hd]
      refine ⟨⟨hspeed, hret, hD⟩, hr, le_refl _, ?_⟩
      intro v hv
      simp only [List.mem_append, List.mem_singleton, Effect.set_heading.injEq] at hv
      rcases hv with hv | hv
      · split_ifs at hv <;> simp at hv
      · rw [hv]; exact hr
    · rw [loop_cb_disabled_idle s h he hd]
      refine ⟨⟨hspeed, hret, hD⟩, hy, ht, ?_⟩
      intro v hv
      split_ifs at hv <;> simp at hv
  · by_cases hr : (controlling_rudder s h h.cursor.1 h.cursor.2).ret = 0
    · by_cases hd : (controlling_rudder s h h.cursor.1 h.cursor.2).state.yaw_ratio ≠ 0
          ∧ (controlling_rudder s h h.cursor.1 h.cursor.2).state.rudder_return ≠ 0
          ∧ (controlling_rudder s h h.cursor.1 h.cursor.2).state.kbd_rudder_on = false
      · have hq := rudder_return_step_range s.yaw_ratio s.rudder_ret_spd h.time_ms s._last_time
          hy hret ht
        rw [loop_cb_yoke_decay s h he hr hd]
        simp only [f1, f2, f3, f4, f5]
        refine ⟨⟨hspeed, hret, hD⟩, hq, le_refl _, ?_⟩
        intro v hv
        simp only [List.mem_append, List.mem_singleton, Effect.set_heading.injEq, List.mem_cons,
          List.mem_nil_iff, or_false, reduceCtorEq] at hv
        rcases hv with hv | hv
        · exact absurd hv (nh v)
        · rw [hv]; exact hq
      · rw [loop_cb_yoke_idle s h he hr hd]
        simp only [f1, f2, f3, f4, f5]
        refine ⟨⟨hspeed, hret, hD⟩, hy, ht, ?_⟩
        intro v hv
        simp only [List.mem_append, List.mem_cons, List.mem_nil_iff, or_false, reduceCtorEq] at hv
        exact absurd hv (nh v)
    · have hq := capture_yaw_range (controlling_rudder s h h.cursor.1 h.cursor.2).x
        (controlling_rudder s h h.cursor.1 h.cursor.2).state.cursor_pos.1
        (controlling_rudder s h h.cursor.1 h.cursor.2).state.rudder_defl_dist (by rw [f4]; exact hD)
      rw [loop_cb_capture s h he hr]
      simp only [f2, f3, f4] at hq ⊢
      refine ⟨⟨hspeed, hret, hD⟩, hq, le_refl _, ?_⟩
      intro v hv
      simp only [List.mem_append, List.mem_singleton, Effect.set_heading.injEq] at hv
      rcases hv with hv | hv
      · exact absurd hv (nh v)
      · rw [hv]; exact hq

theorem rudder_left_cb_keeps_range (s : State) (p : XPLMCommandPhase) (h : Host)
    (hc : settings_in_range s) (hy : yaw_in_range s) (ht : s._last_time ≤ h.time_ms) :
    settings_in_range (rudder_left_cb s p h).state ∧ yaw_in_range (rudder_left_cb s p h).state
      ∧ (rudder_left_cb s p h).state._last_time ≤ h.time_ms
      ∧ heading_writes_in_range (rudder_left_cb s p h).effects := by
  obtain ⟨hspeed, hret, hD⟩ := hc
  unfold settings_in_range yaw_in_range heading_writes_in_range at *
  unfold rudder_left_cb
  simp only
  split_ifs <;>
    refine ⟨⟨hspeed, hret, hD⟩, ⟨?_, ?_⟩, ?_, ?_⟩ <;>
    first
      | exact ht
      | exact le_refl _
      | (simp only []; linarith [hspeed.1, hspeed.2, hy.1, hy.2])
      | (intro v hv
         simp only [List.mem_singleton, Effect.set_heading.injEq, List.mem_nil_iff,
           reduceCtorEq] at hv
         try subst hv
         try constructor <;> linarith [hspeed.1, hspeed.2, hy.1, hy.2])

theorem rudder_right_cb_keeps_range (s : State) (p : XPLMCommandPhase) (h : Host)
    (hc : settings_in_range s) (hy : yaw_in_range s) (ht : s._last_time ≤ h.time_ms) :
    settings_in_range (rudder_right_cb s p h).state ∧ yaw_in_range (rudder_right_cb s p h).state
      ∧ (rudder_right_cb s p h).state._last_time ≤ h.time_ms
      ∧ heading_writes_in_range (rudder_right_cb s p h).effects := by
  obtain ⟨hspeed, hret, hD⟩ := hc
  unfold settings_in_range yaw_in_range heading_writes_in_range at *
  unfold rudder_right_cb
  simp only
  split_ifs <;>
    refine ⟨⟨hspeed, hret, hD⟩, ⟨?_, ?_⟩, ?_, ?_⟩ <;>
    first
      | exact ht
      | exact le_refl _
      | (simp only []; linarith [hspeed.1, hspeed.2, hy.1, hy.2])
      | (intro v hv
         simp only [List.mem_singleton, Effect.set_heading.injEq, List.mem_nil_iff,
           reduceCtorEq] at hv
         try subst hv
         try constructor <;> linarith [hspeed.1, hspeed.2, hy.1, hy.2])

theorem toggle_yoke_control_cb_keeps_range (s : State) (p : XPLMCommandPhase) (h : Host)
    (hc : settings_in_range s) (hy : yaw_in_range s) (ht : s._last_time ≤ h.time_ms) :
    settings_in_range (toggle_yoke_control_cb s p h).state
      ∧ yaw_in_range (toggle_yoke_control_cb s p h).state
      ∧ (toggle_yoke_control_cb s p h).state._last_time ≤ h.time_ms
      ∧ heading_writes_in_range (toggle_yoke_control_cb s p h).effects := by
  unfold settings_in_range yaw_in_range heading_writes_in_range at *
  unfold toggle_yoke_control_cb set_cursor_from_yoke change_cursor_bmp
  split_ifs <;> exact ⟨hc, hy, ht, by simp⟩

theorem step_keeps_range (s : State) (e : Event)
    (hc : settings_in_range s) (hy : yaw_in_range s) (ht : s._last_time ≤ e.host.time_ms) :
    settings_in_range (step s e).1 ∧ yaw_in_range (step s e).1
      ∧ (step s e).1._last_time ≤ e.host.time_ms
      ∧ heading_writes_in_range (step s e).2 := by
  cases e with
  | tick h => exact loop_cb_keeps_range s h hc hy ht
  | toggle p h => exact toggle_yoke_control_cb_keeps_range s p h hc hy ht
  | rudder_left p h => exact rudder_left_cb_keeps_range s p h hc hy ht
  | rudder_right p h => exact rudder_right_cb_keeps_range s p h hc hy ht

theorem clock_monotone_from (t u : Int) (es : List Event) (htu : t ≤ u)
    (h : clock_monotone u es) : clock_monotone t es := by
  cases es with
  | nil => trivial
  | cons e es => exact ⟨le_trans htu h.1, h.2⟩

theorem trace_keeps_range (es : List Event) :
    ∀ s : State, settings_in_range s → yaw_in_range s → clock_monotone s._last_time es →
      ∀ p ∈ trace s es, yaw_in_range p.1 ∧ heading_writes_in_range p.2 := by
  induction es with
  | nil => intro s _ _ _ p hp; simp [trace] at hp
  | cons e es ih =>
    intro s hc hy hclock p hp
    obtain ⟨h1, h2, h3, h4⟩ := step_keeps_range s e hc hy hclock.1
    simp only [trace, List.mem_cons] at hp
    rcases hp with hp | hp
    · rw [hp]; exact ⟨h2, h4⟩
    · exact ih (step s e).1 h1 h2 (clock_monotone_from _ _ es h3 hclock.2) p hp

/-! ## C1: the yaw range -/

/-- C1 (amended): for every configuration whose keyboard step lies in `[0, 1]`,
whose return speed is non-negative and whose deflection distance is non-zero,
and for every sequence of callbacks (frame ticks, RudderLeft and RudderRight in
any phase, ToggleControl in any phase) whose clock readings never go backwards,
starting from the state after start-up (yaw `0`), the stored `yaw_ratio` lies in
`[-1, 1]` after each callback, and so does every value written to the
heading-ratio output. -/
theorem yaw_range_invariant (c : Config) (es : List Event)
    (hspeed : 0 ≤ c.kbd_rudder_speed ∧ c.kbd_rudder_speed ≤ 1)
    (hret : 0 ≤ c.rudder_ret_spd) (hD : c.rudder_defl_dist ≠ 0)
    (hclock : clock_monotone 0 es) :
    ∀ p ∈ trace (initial_state c) es,
      (-1 ≤ p.1.yaw_ratio ∧ p.1.yaw_ratio ≤ 1)
        ∧ ∀ v : ℚ, Effect.set_heading v ∈ p.2 → -1 ≤ v ∧ v ≤ 1 :=
  trace_keeps_range es (initial_state c) ⟨hspeed, hret, hD⟩
    ⟨by simp [initial_state], by simp [initial_state]⟩ hclock

/-- The yaw range invariant applied to the default settings and a RudderRight
"begin" at clock reading 0: the yaw stored by that callback lies in `[-1, 1]`. -/
theorem yaw_range_invariant_witness :
    ((0 ≤ default_config.kbd_rudder_speed ∧ default_config.kbd_rudder_speed ≤ 1)
      ∧ 0 ≤ default_config.rudder_ret_spd ∧ default_config.rudder_defl_dist ≠ 0
      ∧ clock_monotone 0 [Event.rudder_right XPLMCommandPhase.xplm_CommandBegin (host_at 0)])
    ∧ (-1 ≤ (step (initial_state default_config)
          (Event.rudder_right XPLMCommandPhase.xplm_CommandBegin (host_at 0))).1.yaw_ratio
      ∧ (step (initial_state default_config)
          (Event.rudder_right XPLMCommandPhase.xplm_CommandBegin (host_at 0))).1.yaw_ratio ≤ 1) :=
  ⟨⟨by norm_num [default_config], by norm_num [default_config], by norm_num [default_config],
      by simp [clock_monotone, Event.host, host_at]⟩,
    (yaw_range_invariant default_config
      [Event.rudder_right XPLMCommandPhase.xplm_CommandBegin (host_at 0)]
      (by norm_num [default_config]) (by norm_num [default_config])
      (by norm_num [default_config]) (by simp [clock_monotone, Event.host, host_at])
      (step (initial_state default_config)
        (Event.rudder_right XPLMCommandPhase.xplm_CommandBegin (host_at 0)))
      (by simp [trace])).1⟩

/-- C1 (as stated) fails: with the keyboard step configured as `2`, the first
RudderRight "begin" stores `yaw_ratio = 2`, outside `[-1, 1]`. -/
theorem yaw_range_fails_for_fast_keyboard :
    (run (initial_state fast_keyboard_config)
        [Event.rudder_right XPLMCommandPhase.xplm_CommandBegin idle_host]).yaw_ratio = 2
      ∧ ¬ (run (initial_state fast_keyboard_config)
        [Event.rudder_right XPLMCommandPhase.xplm_CommandBegin idle_host]).yaw_ratio ≤ 1 := by
  have h : (run (initial_state fast_keyboard_config)
      [Event.rudder_right XPLMCommandPhase.xplm_CommandBegin idle_host]).yaw_ratio = 2 := by
    simp [run, step, rudder_right_cb, initial_state, fast_keyboard_config, default_config]
  rw [h]
  norm_num

/-- The other two assumptions of the amended C1 are needed as well.  With a
return speed of `-2`, a key tap released at 0 ms and a tick at 1000 ms stores
yaw `43/20`; with default settings, a key tap released at 1000 ms and a tick
whose clock reads 0 ms stores yaw `43/20` too. -/
theorem yaw_range_needs_return_speed_and_clock :
    (run (initial_state negative_return_config) (tap_then_tick 0 1000)).yaw_ratio = 43 / 20
    ∧ (run (initial_state default_config) (tap_then_tick 1000 0)).yaw_ratio = 43 / 20 := by
  constructor
  · simp [tap_then_tick, run, step, rudder_right_cb, loop_cb, rudder_return_step, initial_state,
      negative_return_config, default_config, host_at, idle_host]
    norm_num
  · simp [tap_then_tick, run, step, rudder_right_cb, loop_cb, rudder_return_step, initial_state,
      default_config, host_at, idle_host]
    norm_num

/-! ## The four outcomes of `controlling_rudder` -/

theorem controlling_rudder_released_yoke (s : State) (h : Host) (x y : Int)
    (hb : h.left_mouse_down = 0) (hc : s.rudder_control = 0) :
    controlling_rudder s h x y = { state := s, effects := [], x := x, y := y, ret := 0 } := by
  unfold controlling_rudder
  rw [if_neg (not_not.mpr hb), if_neg (not_not.mpr hc), hc]

theorem controlling_rudder_released_capture (s : State) (h : Host) (x y : Int)
    (hb : h.left_mouse_down = 0) (hc : s.rudder_control ≠ 0) :
    controlling_rudder s h x y =
      { state := { s with rudder_control := 0 },
        effects := change_cursor_bmp s cursor_t.CURSOR_YOKE
          ++ [Effect.set_cursor_pos s.cursor_pos.1 s.cursor_pos.2],
        x := s.cursor_pos.1, y := s.cursor_pos.2, ret := 0 } := by
  unfold controlling_rudder
  rw [if_neg (not_not.mpr hb), if_pos hc]

theorem controlling_rudder_held_capture (s : State) (h : Host) (x y : Int)
    (hb : h.left_mouse_down ≠ 0) (hc : s.rudder_control ≠ 0) :
    controlling_rudder s h x y =
      { state := s, effects := [], x := x, y := y, ret := s.rudder_control } := by
  unfold controlling_rudder
  rw [if_pos hb, if_neg hc]

theorem controlling_rudder_held_entry (s : State) (h : Host) (x y : Int)
    (hb : h.left_mouse_down ≠ 0) (hc : s.rudder_control = 0) :
    (controlling_rudder s h x y).state = { s with cursor_pos := h.mouse_global, rudder_control := 1 }
      ∧ (controlling_rudder s h x y).ret = 1 := by
  unfold controlling_rudder
  rw [if_pos hb, if_pos hc]
  split_ifs <;> exact ⟨rfl, rfl⟩

theorem controlling_rudder_ret_eq_zero_iff (s : State) (h : Host) (x y : Int) :
    (controlling_rudder s h x y).ret = 0 ↔ h.left_mouse_down = 0 := by
  constructor
  · intro hr
    by_contra hb
    by_cases hc : s.rudder_control = 0
    · rw [(controlling_rudder_held_entry s h x y hb hc).2] at hr
      exact absurd hr (by norm_num)
    · rw [controlling_rudder_held_capture s h x y hb hc] at hr
      exact hc hr
  · intro hb
    by_cases hc : s.rudder_control = 0
    · rw [controlling_rudder_released_yoke s h x y hb hc]
    · rw [controlling_rudder_released_capture s h x y hb hc]

/-! ## C2: the Axis Mapper with its dead zone -/

theorem null_zone_eq_dead_zone_spec (nz v : ℚ) : null_zone nz v = dead_zone_spec nz v := by
  unfold null_zone dead_zone_spec
  by_cases hv : |v| ≤ nz
  · have h1 : ¬ (v > nz ∨ v < -nz) := by
      rw [abs_le] at hv
      rintro (h | h) <;> linarith [hv.1, hv.2]
    rw [if_neg h1, if_pos hv]
  · have h1 : v > nz ∨ v < -nz := by
      rw [not_le, lt_abs] at hv
      rcases hv with h | h
      · exact Or.inl h
      · exact Or.inr (by linarith)
    rw [if_pos h1, if_neg hv]

/-- The effects of the yoke branch of `loop_cb` (button not held): the cursor
calls of `controlling_rudder`, then one roll write and one pitch write computed
from the pointer values `controlling_rudder` left behind, then possibly one
heading write. -/
theorem loop_cb_yoke_effects (s : State) (h : Host)
    (he : s.yoke_control_enabled ≠ 0) (hb : h.left_mouse_down = 0) :
    ∃ tail : List Effect,
      (tail = [] ∨ ∃ v : ℚ, tail = [Effect.set_heading v])
      ∧ (loop_cb s h).effects =
        (controlling_rudder s h h.cursor.1 h.cursor.2).effects
          ++ [Effect.set_roll (null_zone s.yoke_nz
                (yoke_roll (controlling_rudder s h h.cursor.1 h.cursor.2).x s.screen_width)),
              Effect.set_pitch (null_zone s.yoke_nz
                (yoke_pitch (controlling_rudder s h h.cursor.1 h.cursor.2).y s.screen_height))]
          ++ tail := by
  have hr := (controlling_rudder_ret_eq_zero_iff s h h.cursor.1 h.cursor.2).mpr hb
  have hst : (controlling_rudder s h h.cursor.1 h.cursor.2).state.yoke_nz = s.yoke_nz
      ∧ (controlling_rudder s h h.cursor.1 h.cursor.2).state.screen_width = s.screen_width
      ∧ (controlling_rudder s h h.cursor.1 h.cursor.2).state.screen_height = s.screen_height := by
    by_cases hc : s.rudder_control = 0
    · rw [controlling_rudder_released_yoke s h _ _ hb hc]; exact ⟨rfl, rfl, rfl⟩
    · rw [controlling_rudder_released_capture s h _ _ hb hc]; exact ⟨rfl, rfl, rfl⟩
  obtain ⟨g1, g2, g3⟩ := hst
  by_cases hd : (controlling_rudder s h h.cursor.1 h.cursor.2).state.yaw_ratio ≠ 0
      ∧ (controlling_rudder s h h.cursor.1 h.cursor.2).state.rudder_return ≠ 0
      ∧ (controlling_rudder s h h.cursor.1 h.cursor.2).state.kbd_rudder_on = false
  · rw [loop_cb_yoke_decay s h he hr hd, g1, g2, g3]
    exact ⟨[Effect.set_heading _], Or.inr ⟨_, rfl⟩, rfl⟩
  · rw [loop_cb_yoke_idle s h he hr hd, g1, g2, g3]
    exact ⟨[], Or.inl rfl, (List.append_nil _).symm⟩

theorem captured_state_eq :
    captured_state =
      { initial_state default_config with
        screen_width := 400, screen_height := 400, yoke_control_enabled := 1,
        rudder_control := 1, cursor_pos := (100, 100), _last_time := 20 } := by
  simp [captured_state, run, step, toggle_yoke_control_cb, loop_cb, controlling_rudder,
    capture_yaw, initial_state, default_config, host_with, float_to_int]

/-- The axis writes of a tick on which the button is not held: exactly one roll
and one pitch value, the null-zone test applied to the binary32 roll and pitch
of the position the tick maps (the sample, or the anchor on the tick that ends
capture). -/
theorem loop_cb_axis_writes (s : State) (h : Host)
    (he : s.yoke_control_enabled ≠ 0) (hb : h.left_mouse_down = 0) :
    (∀ v : ℚ, Effect.set_roll v ∈ (loop_cb s h).effects ↔
        v = null_zone s.yoke_nz
          (yoke_roll (if s.rudder_control = 0 then h.cursor.1 else s.cursor_pos.1)
            s.screen_width))
    ∧ (∀ v : ℚ, Effect.set_pitch v ∈ (loop_cb s h).effects ↔
        v = null_zone s.yoke_nz
          (yoke_pitch (if s.rudder_control = 0 then h.cursor.2 else s.cursor_pos.2)
            s.screen_height)) := by
  obtain ⟨tail, htail, heff⟩ := loop_cb_yoke_effects s h he hb
  rw [heff]
  by_cases hc : s.rudder_control = 0
  · rw [controlling_rudder_released_yoke s h _ _ hb hc, if_pos hc, if_pos hc]
    rcases htail with ht | ⟨w, ht⟩ <;> subst ht <;> simp
  · rw [controlling_rudder_released_capture s h _ _ hb hc, if_neg hc, if_neg hc]
    unfold change_cursor_bmp
    rcases htail with ht | ⟨w, ht⟩ <;> subst ht <;> split_ifs <;> simp

/-- C2 (amended): on every enabled tick on which the button is not held, with a
screen size `(W, H)` that is not zero, exactly one value is written to the roll
output and one to the pitch output, namely `dz(r)` and `dz(p)`, where `r` and
`p` are `2*(x/W) - 1` and `1 - 2*(y/H)` as `loop_cb` computes them in binary32
arithmetic, and `dz(v)` is `0` when `|v| ≤ nz` and `v` unchanged when
`|v| > nz`, each axis on its own.  For a position inside a screen of at most
`2^24` pixels `r` and `p` are within `5 * 2^-24` of the exact `2*(x/W) - 1` and
`1 - 2*(y/H)`.  `(x, y)` is the pointer position sampled at the tick when
capture was not active before the tick, and the saved anchor (to which the same
tick moves the pointer back) on the tick that ends capture.  The screen size is
assumed non-zero because the quotient by zero is a NaN or an infinity in C. -/
theorem axis_mapper_dead_zone (s : State) (h : Host)
    (_hW : s.screen_width ≠ 0) (_hH : s.screen_height ≠ 0)
    (he : s.yoke_control_enabled ≠ 0) (hb : h.left_mouse_down = 0) :
    (∀ v : ℚ, Effect.set_roll v ∈ (loop_cb s h).effects ↔
        v = dead_zone_spec s.yoke_nz
          (yoke_roll (if s.rudder_control = 0 then h.cursor.1 else s.cursor_pos.1)
            s.screen_width))
    ∧ (∀ v : ℚ, Effect.set_pitch v ∈ (loop_cb s h).effects ↔
        v = dead_zone_spec s.yoke_nz
          (yoke_pitch (if s.rudder_control = 0 then h.cursor.2 else s.cursor_pos.2)
            s.screen_height))
    ∧ (0 < s.screen_width → s.screen_width ≤ 2 ^ 24 →
        0 ≤ (if s.rudder_control = 0 then h.cursor.1 else s.cursor_pos.1) →
        (if s.rudder_control = 0 then h.cursor.1 else s.cursor_pos.1) ≤ s.screen_width →
        |yoke_roll (if s.rudder_control = 0 then h.cursor.1 else s.cursor_pos.1) s.screen_width
            - roll_spec (if s.rudder_control = 0 then h.cursor.1 else s.cursor_pos.1)
                s.screen_width| ≤ 5 / 16777216)
    ∧ (0 < s.screen_height → s.screen_height ≤ 2 ^ 24 →
        0 ≤ (if s.rudder_control = 0 then h.cursor.2 else s.cursor_pos.2) →
        (if s.rudder_control = 0 then h.cursor.2 else s.cursor_pos.2) ≤ s.screen_height →
        |yoke_pitch (if s.rudder_control = 0 then h.cursor.2 else s.cursor_pos.2) s.screen_height
            - pitch_spec (if s.rudder_control = 0 then h.cursor.2 else s.cursor_pos.2)
                s.screen_height| ≤ 5 / 16777216) := by
  obtain ⟨wr, wp⟩ := loop_cb_axis_writes s h he hb
  refine ⟨?_, ?_, fun h1 h2 h3 h4 => yoke_roll_error _ _ h1 h2 ⟨h3, h4⟩,
    fun h1 h2 h3 h4 => yoke_pitch_error _ _ h1 h2 ⟨h3, h4⟩⟩
  · intro v
    rw [wr v, null_zone_eq_dead_zone_spec]
  · intro v
    rw [wp v, null_zone_eq_dead_zone_spec]

theorem after_enable_default_eq :
    after_enable (initial_state default_config) (host_with 0 200 200 0)
      = { initial_state default_config with
          screen_width := 400, screen_height := 400, yoke_control_enabled := 1 } := by
  simp [after_enable, toggle_yoke_control_cb, initial_state, host_with]

/-- The Axis Mapper theorem applied to the first yoke-mode tick after enabling
control on a 400 x 400 screen (default settings), pointer at `(300, 100)`: the
roll written is `1/2`. -/
theorem axis_mapper_dead_zone_witness :
    ((after_enable (initial_state default_config) (host_with 0 200 200 0)).screen_width ≠ 0
      ∧ (after_enable (initial_state default_config) (host_with 0 200 200 0)).screen_height ≠ 0
      ∧ (after_enable (initial_state default_config) (host_with 0 200 200 0)).yoke_control_enabled
          ≠ 0
      ∧ (host_with 20 300 100 0).left_mouse_down = 0)
    ∧ (Effect.set_roll (1 / 2)
        ∈ (loop_cb (after_enable (initial_state default_config) (host_with 0 200 200 0))
            (host_with 20 300 100 0)).effects) := by
  have hw : (after_enable (initial_state default_config)
      (host_with 0 200 200 0)).screen_width ≠ 0 := by rw [after_enable_default_eq]; norm_num
  have hh : (after_enable (initial_state default_config)
      (host_with 0 200 200 0)).screen_height ≠ 0 := by rw [after_enable_default_eq]; norm_num
  have hen : (after_enable (initial_state default_config)
      (host_with 0 200 200 0)).yoke_control_enabled ≠ 0 := by
    rw [after_enable_default_eq]; norm_num
  have hbt : (host_with 20 300 100 0).left_mouse_down = 0 := rfl
  refine ⟨⟨hw, hh, hen, hbt⟩, ?_⟩
  rw [(axis_mapper_dead_zone _ _ hw hh hen hbt).1, after_enable_default_eq]
  simp [initial_state, default_config, host_with, dead_zone_spec, yoke_roll_300_400]
  norm_num [abs_of_pos]

/-- C2 (as stated) fails in two ways.  Rounding: with default settings on a
400 x 400 screen and the pointer at `(210, 190)`, the exact `2*(210/400) - 1`
and `1 - 2*(190/400)` are both `1/20`, inside the dead zone, yet the tick writes
roll `0` and pitch `838861 * 2^-24`, because the binary32 pitch falls just
outside; the same happens when the dead zone is the binary32 value nearest to
`0.05`.  Pointer: on the tick that ends capture, with anchor `(100, 100)` and
the button released while the pointer is at `(300, 300)`, the tick writes roll
`-1/2` and pitch `1/2`, the values of the anchor, whereas the formula at the
pointer `(300, 300)` gives roll `1/2` and pitch `-1/2`. -/
theorem axis_mapper_not_exact_formula_of_pointer :
    ((loop_cb (after_enable (initial_state default_config) (host_with 0 200 200 0))
          (host_with 20 210 190 0)).effects
        = [Effect.set_roll 0, Effect.set_pitch (838861 / 16777216)]
      ∧ (loop_cb { after_enable (initial_state default_config) (host_with 0 200 200 0) with
            yoke_nz := 13421773 / 268435456 } (host_with 20 210 190 0)).effects
        = [Effect.set_roll 0, Effect.set_pitch (838861 / 16777216)]
      ∧ dead_zone_spec (1 / 20) (roll_spec 210 400) = 0
      ∧ dead_zone_spec (1 / 20) (pitch_spec 190 400) = 0
      ∧ dead_zone_spec (13421773 / 268435456) (pitch_spec 190 400) = 0)
    ∧ ((captured_state.screen_width = 400 ∧ captured_state.screen_height = 400
        ∧ captured_state.yoke_control_enabled ≠ 0
        ∧ (host_with 40 300 300 0).left_mouse_down = 0)
      ∧ (loop_cb captured_state (host_with 40 300 300 0)).effects =
          [Effect.set_cursor_bmp cursor_t.CURSOR_YOKE, Effect.set_cursor_pos 100 100,
           Effect.set_roll (-1 / 2), Effect.set_pitch (1 / 2)]
      ∧ dead_zone_spec captured_state.yoke_nz (yoke_roll 300 captured_state.screen_width)
          = 1 / 2
      ∧ dead_zone_spec captured_state.yoke_nz (yoke_pitch 300 captured_state.screen_height)
          = -1 / 2) := by
  refine ⟨⟨?_, ?_, ?_, ?_, ?_⟩, ?_⟩
  · rw [after_enable_default_eq]
    simp [loop_cb, controlling_rudder, null_zone, initial_state, default_config, host_with,
      yoke_roll_210_400, yoke_pitch_190_400]
    norm_num
  · rw [after_enable_default_eq]
    simp [loop_cb, controlling_rudder, null_zone, initial_state, default_config, host_with,
      yoke_roll_210_400, yoke_pitch_190_400]
    norm_num
  · simp [dead_zone_spec, roll_spec]
    norm_num [abs_of_pos]
  · simp [dead_zone_spec, pitch_spec]
    norm_num [abs_of_pos]
  · simp [dead_zone_spec, pitch_spec]
    norm_num [abs_of_pos]
  · rw [captured_state_eq]
    refine ⟨⟨rfl, rfl, by simp, rfl⟩, ?_, ?_, ?_⟩
    · simp [loop_cb, controlling_rudder, change_cursor_bmp, null_zone, initial_state,
        default_config, host_with, yoke_roll_100_400, yoke_pitch_100_400]
      norm_num
    · simp [dead_zone_spec, initial_state, default_config, yoke_roll_300_400]
      norm_num [abs_of_pos]
    · simp [dead_zone_spec, initial_state, default_config, yoke_pitch_300_400]
      norm_num [abs_of_neg]

/-! ## C3: yaw under mouse capture -/

theorem capture_yaw_eq_mouse_yaw_spec (m_x anchor_x D : Int) (hD : 0 < D) :
    capture_yaw m_x anchor_x D = mouse_yaw_spec D (m_x - anchor_x) := by
  unfold capture_yaw mouse_yaw_spec clamp_spec
  simp only
  congr 2
  split_ifs with h1 h2
  · rw [max_eq_right (le_of_lt h1)]; exact min_eq_left (by omega)
  · rw [max_eq_left (by omega)]; exact min_eq_right (le_of_lt h2)
  · rw [max_eq_left (by omega)]; exact min_eq_left (by omega)

theorem mouse_yaw_spec_values (D dx : Int) (hD : 0 < D) :
    (dx = 0 → mouse_yaw_spec D dx = 0)
    ∧ (D ≤ dx → mouse_yaw_spec D dx = 1)
    ∧ (dx ≤ -D → mouse_yaw_spec D dx = -1) := by
  have hq : (D : ℚ) ≠ 0 := by exact_mod_cast (ne_of_gt hD)
  unfold mouse_yaw_spec clamp_spec
  refine ⟨?_, ?_, ?_⟩
  · intro h0
    rw [h0, if_neg (by omega), if_neg (by omega)]
    simp
  · intro h1
    rw [if_neg (by omega)]
    split_ifs with h2
    · exact div_self hq
    · have : dx = D := by omega
      rw [this]; exact div_self hq
  · intro h1
    split_ifs with h2 h3
    · push_cast; rw [neg_div, div_self hq]
    · omega
    · have : dx = -D := by omega
      rw [this]; push_cast; rw [neg_div, div_self hq]

/-- C3: for every deflection distance `D > 0`, on every enabled tick taken while
rudder capture is already active and the button is still held, the yaw stored
(and the one value written to the heading output) is `clamp(x - anchorX, -D, D) / D`
for the live pointer `x` and the saved anchor.  Displacement `0` gives yaw `0`,
displacement `+D` gives `1`, and any displacement at or beyond `+D` / `-D`
gives exactly `1` / `-1`.  The yaw depends on nothing else: two such ticks, in
any two states and hosts, with the same `D` and the same displacement store the
same yaw, whatever the previous yaw, the keyboard state or the clock. -/
theorem mouse_capture_yaw (s : State) (h : Host)
    (hD : 0 < s.rudder_defl_dist)
    (he : s.yoke_control_enabled ≠ 0) (hc : s.rudder_control ≠ 0)
    (hb : h.left_mouse_down ≠ 0) :
    (loop_cb s h).state.yaw_ratio = mouse_yaw_spec s.rudder_defl_dist (h.cursor.1 - s.cursor_pos.1)
    ∧ (∀ v : ℚ, Effect.set_heading v ∈ (loop_cb s h).effects ↔
        v = mouse_yaw_spec s.rudder_defl_dist (h.cursor.1 - s.cursor_pos.1))
    ∧ (h.cursor.1 - s.cursor_pos.1 = 0 → (loop_cb s h).state.yaw_ratio = 0)
    ∧ (h.cursor.1 - s.cursor_pos.1 = s.rudder_defl_dist → (loop_cb s h).state.yaw_ratio = 1)
    ∧ (s.rudder_defl_dist ≤ h.cursor.1 - s.cursor_pos.1 → (loop_cb s h).state.yaw_ratio = 1)
    ∧ (h.cursor.1 - s.cursor_pos.1 ≤ -s.rudder_defl_dist →
        (loop_cb s h).state.yaw_ratio = -1)
    ∧ (∀ (s' : State) (h' : Host), s'.yoke_control_enabled ≠ 0 → s'.rudder_control ≠ 0 →
        h'.left_mouse_down ≠ 0 → s'.rudder_defl_dist = s.rudder_defl_dist →
        h'.cursor.1 - s'.cursor_pos.1 = h.cursor.1 - s.cursor_pos.1 →
        (loop_cb s' h').state.yaw_ratio = (loop_cb s h).state.yaw_ratio) := by
  have hcr := controlling_rudder_held_capture s h h.cursor.1 h.cursor.2 hb hc
  have hr : (controlling_rudder s h h.cursor.1 h.cursor.2).ret ≠ 0 := by rw [hcr]; exact hc
  have hyaw : (loop_cb s h).state.yaw_ratio
      = mouse_yaw_spec s.rudder_defl_dist (h.cursor.1 - s.cursor_pos.1) := by
    rw [loop_cb_capture s h he hr, hcr]
    exact capture_yaw_eq_mouse_yaw_spec _ _ _ hD
  obtain ⟨v0, v1, v2⟩ := mouse_yaw_spec_values s.rudder_defl_dist (h.cursor.1 - s.cursor_pos.1) hD
  refine ⟨hyaw, ?_, ?_, ?_, ?_, ?_, ?_⟩
  · intro v
    rw [loop_cb_capture s h he hr, hcr]
    simp only [List.nil_append, List.mem_singleton, Effect.set_heading.injEq]
    rw [capture_yaw_eq_mouse_yaw_spec _ _ _ hD]
  · intro h0; rw [hyaw]; exact v0 h0
  · intro h1; rw [hyaw]; exact v1 (le_of_eq h1.symm)
  · intro h1; rw [hyaw]; exact v1 h1
  · intro h1; rw [hyaw]; exact v2 h1
  · intro s' h' he' hc' hb' hD' hdx
    have hcr' := controlling_rudder_held_capture s' h' h'.cursor.1 h'.cursor.2 hb' hc'
    have hr' : (controlling_rudder s' h' h'.cursor.1 h'.cursor.2).ret ≠ 0 := by
      rw [hcr']; exact hc'
    rw [hyaw, loop_cb_capture s' h' he' hr', hcr']
    show capture_yaw h'.cursor.1 s'.cursor_pos.1 s'.rudder_defl_dist = _
    rw [capture_yaw_eq_mouse_yaw_spec _ _ _ (by rw [hD']; exact hD), hD', hdx]

/-- The mouse-capture theorem applied to the captured state (anchor `(100, 100)`,
deflection distance 200) with the pointer dragged to `x = 150`: yaw `1/4`. -/
theorem mouse_capture_yaw_witness :
    (0 < captured_state.rudder_defl_dist ∧ captured_state.yoke_control_enabled ≠ 0
      ∧ captured_state.rudder_control ≠ 0 ∧ (host_with 40 150 100 1).left_mouse_down ≠ 0)
    ∧ (loop_cb captured_state (host_with 40 150 100 1)).state.yaw_ratio = 1 / 4 := by
  have h1 : 0 < captured_state.rudder_defl_dist := by
    rw [captured_state_eq]; simp [initial_state, default_config]
  have h2 : captured_state.yoke_control_enabled ≠ 0 := by rw [captured_state_eq]; simp
  have h3 : captured_state.rudder_control ≠ 0 := by rw [captured_state_eq]; simp
  have h4 : (host_with 40 150 100 1).left_mouse_down ≠ 0 := by simp [host_with]
  refine ⟨⟨h1, h2, h3, h4⟩, ?_⟩
  rw [(mouse_capture_yaw captured_state (host_with 40 150 100 1) h1 h2 h3 h4).1, captured_state_eq]
  simp [mouse_yaw_spec, clamp_spec, initial_state, default_config, host_with]
  norm_num

/-! ## C4: the keyboard ramp -/

theorem run_append (s : State) (es fs : List Event) :
    run s (es ++ fs) = run (run s es) fs := by
  induction es generalizing s with
  | nil => rfl
  | cons e es ih => exact ih (step s e).1

theorem hold_right_succ (h : Host) (n : Nat) :
    hold_right h (n + 1)
      = hold_right h n ++ [Event.rudder_right XPLMCommandPhase.xplm_CommandContinue h] := by
  unfold hold_right
  rw [List.replicate_succ', List.cons_append]

theorem hold_left_succ (h : Host) (n : Nat) :
    hold_left h (n + 1)
      = hold_left h n ++ [Event.rudder_left XPLMCommandPhase.xplm_CommandContinue h] := by
  unfold hold_left
  rw [List.replicate_succ', List.cons_append]

theorem rudder_right_cb_begin (s : State) (h : Host)
    (hsup : ¬ (s.yoke_control_enabled = 0 ∧ s.bind_rudder = 1)) (hcap : s.rudder_control ≠ 1) :
    rudder_right_cb s XPLMCommandPhase.xplm_CommandBegin h =
      { state := { s with yaw_ratio := s.kbd_rudder_speed, kbd_rudder_on := true },
        effects := [Effect.set_heading s.kbd_rudder_speed], ret := 1 } := by
  unfold rudder_right_cb
  rw [if_neg hsup, if_neg hcap, if_pos rfl]

theorem rudder_left_cb_begin (s : State) (h : Host)
    (hsup : ¬ (s.yoke_control_enabled = 0 ∧ s.bind_rudder = 1)) (hcap : s.rudder_control ≠ 1) :
    rudder_left_cb s XPLMCommandPhase.xplm_CommandBegin h =
      { state := { s with yaw_ratio := -(s.kbd_rudder_speed), kbd_rudder_on := true },
        effects := [Effect.set_heading (-(s.kbd_rudder_speed))], ret := 1 } := by
  unfold rudder_left_cb
  rw [if_neg hsup, if_neg hcap, if_pos rfl]

theorem rudder_right_cb_continue (s : State) (h : Host)
    (hsup : ¬ (s.yoke_control_enabled = 0 ∧ s.bind_rudder = 1)) (hcap : s.rudder_control ≠ 1) :
    rudder_right_cb s XPLMCommandPhase.xplm_CommandContinue h =
      { state := { s with yaw_ratio := min 1 (s.yaw_ratio + s.kbd_rudder_speed) },
        effects := [Effect.set_heading (min 1 (s.yaw_ratio + s.kbd_rudder_speed))], ret := 1 } := by
  have hm : (if s.yaw_ratio + s.kbd_rudder_speed > 1 then 1 else s.yaw_ratio + s.kbd_rudder_speed)
      = min 1 (s.yaw_ratio + s.kbd_rudder_speed) := by
    split_ifs with hgt
    · exact (min_eq_left (le_of_lt hgt)).symm
    · exact (min_eq_right (not_lt.mp hgt)).symm
  unfold rudder_right_cb
  rw [if_neg hsup, if_neg hcap, if_neg (by decide), if_pos rfl]
  simp only [hm]

theorem rudder_left_cb_continue (s : State) (h : Host)
    (hsup : ¬ (s.yoke_control_enabled = 0 ∧ s.bind_rudder = 1)) (hcap : s.rudder_control ≠ 1) :
    rudder_left_cb s XPLMCommandPhase.xplm_CommandContinue h =
      { state := { s with yaw_ratio := max (-1) (s.yaw_ratio - s.kbd_rudder_speed) },
        effects := [Effect.set_heading (max (-1) (s.yaw_ratio - s.kbd_rudder_speed))],
        ret := 1 } := by
  have hm : (if s.yaw_ratio - s.kbd_rudder_speed < -1 then -1 else s.yaw_ratio - s.kbd_rudder_speed)
      = max (-1) (s.yaw_ratio - s.kbd_rudder_speed) := by
    split_ifs with hlt
    · exact (max_eq_left (le_of_lt hlt)).symm
    · exact (max_eq_right (not_lt.mp hlt)).symm
  unfold rudder_left_cb
  rw [if_neg hsup, if_neg hcap, if_neg (by decide), if_pos rfl]
  simp only [hm]

/-- While a RudderRight key is held the mode flags and the settings stay put
and the yaw is `min(1, (n+1) * speed)`. -/
theorem hold_right_state (s : State) (h : Host)
    (hsup : ¬ (s.yoke_control_enabled = 0 ∧ s.bind_rudder = 1)) (hcap : s.rudder_control ≠ 1)
    (hspeed : 0 ≤ s.kbd_rudder_speed ∧ s.kbd_rudder_speed ≤ 1) (n : Nat) :
    run s (hold_right h n) =
      { s with yaw_ratio := min 1 (((n : ℚ) + 1) * s.kbd_rudder_speed), kbd_rudder_on := true } := by
  induction n with
  | zero =>
    simp only [hold_right, List.replicate, run, step]
    rw [rudder_right_cb_begin s h hsup hcap]
    simp [min_eq_right hspeed.2]
  | succ n ih =>
    rw [hold_right_succ, run_append]
    show (rudder_right_cb (run s (hold_right h n)) XPLMCommandPhase.xplm_CommandContinue h).state = _
    rw [rudder_right_cb_continue (run s (hold_right h n)) h (by rw [ih]; exact hsup)
      (by rw [ih]; exact hcap), ih]
    simp only [State.mk.injEq, true_and, and_true]
    push_cast
    rcases le_total 1 (((n : ℚ) + 1) * s.kbd_rudder_speed) with hge | hle
    · rw [min_eq_left hge, min_eq_left (by linarith [hspeed.1]), min_eq_left (by linarith [hspeed.1])]
    · rw [min_eq_right hle]
      congr 1
      ring

/-- While a RudderLeft key is held the mode flags and the settings stay put and
the yaw is `max(-1, -(n+1) * speed)`. -/
theorem hold_left_state (s : State) (h : Host)
    (hsup : ¬ (s.yoke_control_enabled = 0 ∧ s.bind_rudder = 1)) (hcap : s.rudder_control ≠ 1)
    (hspeed : 0 ≤ s.kbd_rudder_speed ∧ s.kbd_rudder_speed ≤ 1) (n : Nat) :
    run s (hold_left h n) =
      { s with yaw_ratio := max (-1) (-(((n : ℚ) + 1) * s.kbd_rudder_speed)),
               kbd_rudder_on := true } := by
  induction n with
  | zero =>
    simp only [hold_left, List.replicate, run, step]
    rw [rudder_left_cb_begin s h hsup hcap]
    simp [max_eq_right (by linarith [hspeed.2] : (-1 : ℚ) ≤ -s.kbd_rudder_speed)]
  | succ n ih =>
    rw [hold_left_succ, run_append]
    show (rudder_left_cb (run s (hold_left h n)) XPLMCommandPhase.xplm_CommandContinue h).state = _
    rw [rudder_left_cb_continue (run s (hold_left h n)) h (by rw [ih]; exact hsup)
      (by rw [ih]; exact hcap), ih]
    simp only [State.mk.injEq, true_and, and_true]
    push_cast
    rcases le_total (-(((n : ℚ) + 1) * s.kbd_rudder_speed)) (-1) with hle | hge
    · rw [max_eq_left hle, max_eq_left (by linarith [hspeed.1]), max_eq_left (by linarith [hspeed.1])]
    · rw [max_eq_right hge]
      congr 1
      ring

/-- C4 (amended): in every state where keyboard rudder input is not suppressed
(the capture flag is not set, and it is not the case that yoke control is
disabled with the bind option on), RudderRight "begin" stores yaw `+speed` and
RudderLeft "begin" stores `-speed`, whatever the previous yaw, and both mark
keyboard rudder active; RudderRight "continue" stores `min(1, yaw + speed)` and
RudderLeft "continue" stores `max(-1, yaw - speed)`.  When the keyboard step
satisfies `0 ≤ speed ≤ 1`, a "begin" followed by `n` "continue" phases yields
yaw `min(1, (n+1)*speed)` for RudderRight and `max(-1, -(n+1)*speed)` for
RudderLeft, which lies in `[-1, 1]`. -/
theorem keyboard_ramp (s : State) (h : Host)
    (hsup : ¬ (s.yoke_control_enabled = 0 ∧ s.bind_rudder = 1)) (hcap : s.rudder_control ≠ 1) :
    ((rudder_right_cb s XPLMCommandPhase.xplm_CommandBegin h).state.yaw_ratio = s.kbd_rudder_speed
      ∧ (rudder_right_cb s XPLMCommandPhase.xplm_CommandBegin h).state.kbd_rudder_on = true)
    ∧ ((rudder_left_cb s XPLMCommandPhase.xplm_CommandBegin h).state.yaw_ratio
          = -s.kbd_rudder_speed
      ∧ (rudder_left_cb s XPLMCommandPhase.xplm_CommandBegin h).state.kbd_rudder_on = true)
    ∧ (rudder_right_cb s XPLMCommandPhase.xplm_CommandContinue h).state.yaw_ratio
        = min 1 (s.yaw_ratio + s.kbd_rudder_speed)
    ∧ (rudder_left_cb s XPLMCommandPhase.xplm_CommandContinue h).state.yaw_ratio
        = max (-1) (s.yaw_ratio - s.kbd_rudder_speed)
    ∧ (0 ≤ s.kbd_rudder_speed ∧ s.kbd_rudder_speed ≤ 1 → ∀ n : Nat,
        ((run s (hold_right h n)).yaw_ratio = min 1 (((n : ℚ) + 1) * s.kbd_rudder_speed)
          ∧ -1 ≤ (run s (hold_right h n)).yaw_ratio ∧ (run s (hold_right h n)).yaw_ratio ≤ 1)
        ∧ ((run s (hold_left h n)).yaw_ratio = max (-1) (-(((n : ℚ) + 1) * s.kbd_rudder_speed))
          ∧ -1 ≤ (run s (hold_left h n)).yaw_ratio ∧ (run s (hold_left h n)).yaw_ratio ≤ 1)) := by
  refine ⟨?_, ?_, ?_, ?_, ?_⟩
  · rw [rudder_right_cb_begin s h hsup hcap]; exact ⟨rfl, rfl⟩
  · rw [rudder_left_cb_begin s h hsup hcap]; exact ⟨rfl, rfl⟩
  · rw [rudder_right_cb_continue s h hsup hcap]
  · rw [rudder_left_cb_continue s h hsup hcap]
  · intro hspeed n
    have hpos : (0 : ℚ) ≤ ((n : ℚ) + 1) * s.kbd_rudder_speed :=
      mul_nonneg (by positivity) hspeed.1
    rw [hold_right_state s h hsup hcap hspeed n, hold_left_state s h hsup hcap hspeed n]
    refine ⟨⟨rfl, ?_, min_le_left _ _⟩, ⟨rfl, le_max_left _ _, ?_⟩⟩
    · exact le_min (by norm_num) (by linarith)
    · exact max_le (by norm_num) (by linarith)

/-- The keyboard ramp applied to the default settings (step `3/20`) in the
state after start-up: RudderRight "begin" followed by 9 "continue" phases
yields yaw exactly `1`. -/
theorem keyboard_ramp_witness :
    (¬ ((initial_state default_config).yoke_control_enabled = 0
          ∧ (initial_state default_config).bind_rudder = 1)
      ∧ (initial_state default_config).rudder_control ≠ 1
      ∧ (0 ≤ (initial_state default_config).kbd_rudder_speed
          ∧ (initial_state default_config).kbd_rudder_speed ≤ 1))
    ∧ (run (initial_state default_config) (hold_right idle_host 9)).yaw_ratio = 1 := by
  have h1 : ¬ ((initial_state default_config).yoke_control_enabled = 0
      ∧ (initial_state default_config).bind_rudder = 1) := by
    simp [initial_state, default_config]
  have h2 : (initial_state default_config).rudder_control ≠ 1 := by simp [initial_state]
  have h3 : 0 ≤ (initial_state default_config).kbd_rudder_speed
      ∧ (initial_state default_config).kbd_rudder_speed ≤ 1 := by
    norm_num [initial_state, default_config]
  refine ⟨⟨h1, h2, h3⟩, ?_⟩
  rw [((keyboard_ramp (initial_state default_config) idle_host h1 h2).2.2.2.2 h3 9).1.1]
  norm_num [initial_state, default_config]

/-- C4 (as stated) fails at its last clause.  With the keyboard step configured
as `2`, a RudderLeft "begin" from yaw `0` followed by no "continue" leaves yaw
`-2`; with the step configured as `-1/2`, a RudderRight "begin" followed by two
"continue" phases leaves yaw `-3/2`.  Both lie outside `[-1, 1]`. -/
theorem keyboard_ramp_overshoots :
    ((initial_state fast_keyboard_config).yaw_ratio = 0
      ∧ (run (initial_state fast_keyboard_config) (hold_left idle_host 0)).yaw_ratio = -2)
    ∧ ((initial_state negative_keyboard_config).yaw_ratio = 0
      ∧ (run (initial_state negative_keyboard_config) (hold_right idle_host 2)).yaw_ratio
          = -3 / 2) := by
  refine ⟨⟨rfl, ?_⟩, ⟨rfl, ?_⟩⟩
  · simp [run, step, hold_left, rudder_left_cb, initial_state, fast_keyboard_config,
      default_config]
  · simp [run, step, hold_right, rudder_right_cb, initial_state, negative_keyboard_config,
      default_config, List.replicate]
    norm_num

/-! ## C5: the return-to-center step -/

theorem rudder_return_step_eq_decay_spec (yaw spd : ℚ) (now last : Int) (hy : yaw ≠ 0) :
    rudder_return_step yaw spd now last
      = decay_spec yaw spd (((now - last : Int) : ℚ) / 1000) := by
  unfold rudder_return_step decay_spec
  simp only [gt_iff_lt]
  by_cases hpos : 0 < yaw
  · rw [if_pos hpos, if_pos hpos]
  · have hneg : yaw < 0 := lt_of_le_of_ne (not_lt.mp hpos) hy
    rw [if_neg hpos, if_neg hpos, if_pos hneg]

theorem decay_spec_toward_zero (yaw s dt : ℚ) (hs : 0 ≤ s) (hdt : 0 ≤ dt) :
    (0 < yaw → 0 ≤ decay_spec yaw s dt ∧ decay_spec yaw s dt ≤ yaw)
    ∧ (yaw < 0 → yaw ≤ decay_spec yaw s dt ∧ decay_spec yaw s dt ≤ 0)
    ∧ (yaw = 0 → decay_spec yaw s dt = 0)
    ∧ |decay_spec yaw s dt| ≤ |yaw| := by
  have hm : 0 ≤ dt * s := mul_nonneg hdt hs
  have h1 : 0 < yaw → 0 ≤ decay_spec yaw s dt ∧ decay_spec yaw s dt ≤ yaw := by
    intro hpos
    unfold decay_spec
    rw [if_pos hpos]
    exact ⟨le_max_left _ _, max_le (le_of_lt hpos) (by linarith)⟩
  have h2 : yaw < 0 → yaw ≤ decay_spec yaw s dt ∧ decay_spec yaw s dt ≤ 0 := by
    intro hneg
    unfold decay_spec
    rw [if_neg (not_lt.mpr (le_of_lt hneg)), if_pos hneg]
    exact ⟨le_min (le_of_lt hneg) (by linarith), min_le_left _ _⟩
  have h3 : yaw = 0 → decay_spec yaw s dt = 0 := by
    intro h0
    unfold decay_spec
    rw [h0, if_neg (lt_irrefl _), if_neg (lt_irrefl _)]
  refine ⟨h1, h2, h3, ?_⟩
  rcases lt_trichotomy yaw 0 with hneg | h0 | hpos
  · obtain ⟨a, b⟩ := h2 hneg
    rw [abs_of_nonpos b, abs_of_neg hneg]; linarith
  · rw [h3 h0, h0]
  · obtain ⟨a, b⟩ := h1 hpos
    rw [abs_of_nonneg a, abs_of_pos hpos]; exact b

/-- The yaw after a tick on which rudder capture is not running (control
disabled, or enabled with the button not held): either the yaw before, or the
return-to-center step of it. -/
theorem loop_cb_yaw_without_capture (s : State) (h : Host)
    (hn : s.yoke_control_enabled = 0 ∨ h.left_mouse_down = 0) :
    (loop_cb s h).state.yaw_ratio = s.yaw_ratio
    ∨ (s.yaw_ratio ≠ 0 ∧ (loop_cb s h).state.yaw_ratio
        = rudder_return_step s.yaw_ratio s.rudder_ret_spd h.time_ms s._last_time) := by
  obtain ⟨f1, f2, f3, f4, f5, f6, f7, f8⟩ := controlling_rudder_frame s h h.cursor.1 h.cursor.2
  by_cases he : s.yoke_control_enabled = 0
  · by_cases hd : s.yaw_ratio ≠ 0 ∧ s.rudder_return ≠ 0
    · rw [loop_cb_disabled_decay s h he hd]; exact Or.inr ⟨hd.1, rfl⟩
    · rw [loop_cb_disabled_idle s h he hd]; exact Or.inl rfl
  · have hb : h.left_mouse_down = 0 := hn.resolve_left he
    have hr := (controlling_rudder_ret_eq_zero_iff s h h.cursor.1 h.cursor.2).mpr hb
    by_cases hd : (controlling_rudder s h h.cursor.1 h.cursor.2).state.yaw_ratio ≠ 0
        ∧ (controlling_rudder s h h.cursor.1 h.cursor.2).state.rudder_return ≠ 0
        ∧ (controlling_rudder s h h.cursor.1 h.cursor.2).state.kbd_rudder_on = false
    · rw [loop_cb_yoke_decay s h he hr hd]
      refine Or.inr ⟨by rw [← f1]; exact hd.1, ?_⟩
      simp only [f1, f3, f5]
    · rw [loop_cb_yoke_idle s h he hr hd]; exact Or.inl f1

/-- C5: whenever a tick runs the decay (disabled with yaw non-zero and
rudder-return on; or enabled, button not held, yaw non-zero, rudder-return on
and keyboard rudder not active) with elapsed time `dt ≥ 0` and return speed
`s ≥ 0`, the new yaw is `max(0, yaw - dt*s)` for positive yaw and
`min(0, yaw + dt*s)` for negative yaw.  Hence on every tick without mouse
capture the sign of yaw never flips, `|yaw|` never increases, and a yaw of `0`
stays `0`. -/
theorem return_to_center_step (s : State) (h : Host)
    (hdt : s._last_time ≤ h.time_ms) (hs : 0 ≤ s.rudder_ret_spd) :
    (s.yoke_control_enabled = 0 → s.yaw_ratio ≠ 0 → s.rudder_return ≠ 0 →
        (loop_cb s h).state.yaw_ratio
          = decay_spec s.yaw_ratio s.rudder_ret_spd
              (((h.time_ms - s._last_time : Int) : ℚ) / 1000))
    ∧ (s.yoke_control_enabled ≠ 0 → h.left_mouse_down = 0 → s.yaw_ratio ≠ 0 →
        s.rudder_return ≠ 0 → s.kbd_rudder_on = false →
        (loop_cb s h).state.yaw_ratio
          = decay_spec s.yaw_ratio s.rudder_ret_spd
              (((h.time_ms - s._last_time : Int) : ℚ) / 1000))
    ∧ (s.yoke_control_enabled = 0 ∨ h.left_mouse_down = 0 →
        (0 < s.yaw_ratio →
          0 ≤ (loop_cb s h).state.yaw_ratio ∧ (loop_cb s h).state.yaw_ratio ≤ s.yaw_ratio)
        ∧ (s.yaw_ratio < 0 →
          s.yaw_ratio ≤ (loop_cb s h).state.yaw_ratio ∧ (loop_cb s h).state.yaw_ratio ≤ 0)
        ∧ (s.yaw_ratio = 0 → (loop_cb s h).state.yaw_ratio = 0)
        ∧ |(loop_cb s h).state.yaw_ratio| ≤ |s.yaw_ratio|) := by
  obtain ⟨f1, f2, f3, f4, f5, f6, f7, f8⟩ := controlling_rudder_frame s h h.cursor.1 h.cursor.2
  have hel := elapsed_nonneg h.time_ms s._last_time hdt
  refine ⟨?_, ?_, ?_⟩
  · intro he hy hr
    rw [loop_cb_disabled_decay s h he ⟨hy, hr⟩]
    exact rudder_return_step_eq_decay_spec _ _ _ _ hy
  · intro he hb hy hr hk
    have hret := (controlling_rudder_ret_eq_zero_iff s h h.cursor.1 h.cursor.2).mpr hb
    rw [loop_cb_yoke_decay s h he hret ⟨by rw [f1]; exact hy, by rw [f7]; exact hr,
      by rw [f6]; exact hk⟩]
    simp only [f1, f3, f5]
    exact rudder_return_step_eq_decay_spec _ _ _ _ hy
  · intro hn
    obtain ⟨d1, d2, d3, d4⟩ := decay_spec_toward_zero s.yaw_ratio s.rudder_ret_spd
      (((h.time_ms - s._last_time : Int) : ℚ) / 1000) hs hel
    rcases loop_cb_yaw_without_capture s h hn with hsame | ⟨hy, hstep⟩
    · rw [hsame]
      exact ⟨fun hp => ⟨le_of_lt hp, le_refl _⟩, fun hq => ⟨le_refl _, le_of_lt hq⟩,
        fun h0 => h0, le_refl _⟩
    · rw [hstep, rudder_return_step_eq_decay_spec _ _ _ _ hy]
      exact ⟨d1, d2, d3, d4⟩

/-- The return-to-center step applied to the numbers of the specification:
yaw `0.4`, return speed `2.0`, `100` ms elapsed, control disabled; the next yaw
is `0.2`. -/
theorem return_to_center_step_witness :
    (deflected_state._last_time ≤ (host_at 100).time_ms ∧ 0 ≤ deflected_state.rudder_ret_spd)
    ∧ deflected_state.yaw_ratio = 2 / 5 ∧ deflected_state.rudder_ret_spd = 2
    ∧ (loop_cb deflected_state (host_at 100)).state.yaw_ratio = 1 / 5 := by
  have h1 : deflected_state._last_time ≤ (host_at 100).time_ms := by
    simp [deflected_state, initial_state, host_at]
  have h2 : 0 ≤ deflected_state.rudder_ret_spd := by
    simp [deflected_state, initial_state, default_config]
  refine ⟨⟨h1, h2⟩, rfl, rfl, ?_⟩
  rw [(return_to_center_step deflected_state (host_at 100) h1 h2).1 rfl
    (by norm_num [deflected_state]) (by simp [deflected_state, initial_state, default_config])]
  simp [decay_spec, deflected_state, initial_state, default_config, host_at, idle_host]
  norm_num

/-! ## C6: keyboard rudder suppressed -/

/-- C6: in every state in which mouse rudder capture is active
(`rudder_control = 1`), and in every state in which yoke control is disabled
while the bind-keyboard-rudder-to-yoke option is on, a RudderLeft or
RudderRight command in any phase changes nothing: the globals (yaw,
keyboard-active flag, last-update timestamp, mode flags and all others) are
the same afterwards and no host call is made, so nothing is written to the yaw
output and the flight loop is not scheduled. -/
theorem keyboard_suppressed (s : State) (p : XPLMCommandPhase) (h : Host)
    (hsup : s.rudder_control = 1 ∨ (s.yoke_control_enabled = 0 ∧ s.bind_rudder = 1)) :
    ((rudder_left_cb s p h).state = s ∧ (rudder_left_cb s p h).effects = [])
    ∧ ((rudder_right_cb s p h).state = s ∧ (rudder_right_cb s p h).effects = []) := by
  unfold rudder_left_cb rudder_right_cb
  rcases hsup with hcap | hbind
  · by_cases hb : s.yoke_control_enabled = 0 ∧ s.bind_rudder = 1
    · rw [if_pos hb, if_pos hb]; exact ⟨⟨rfl, rfl⟩, ⟨rfl, rfl⟩⟩
    · rw [if_neg hb, if_neg hb, if_pos hcap, if_pos hcap]; exact ⟨⟨rfl, rfl⟩, ⟨rfl, rfl⟩⟩
  · rw [if_pos hbind, if_pos hbind]; exact ⟨⟨rfl, rfl⟩, ⟨rfl, rfl⟩⟩

/-- Keyboard suppression applied to the captured state (capture active): a
RudderRight "continue" at 40 ms, or a RudderLeft one, leaves it as it is. -/
theorem keyboard_suppressed_witness :
    (captured_state.rudder_control = 1
      ∨ (captured_state.yoke_control_enabled = 0 ∧ captured_state.bind_rudder = 1))
    ∧ (rudder_right_cb captured_state XPLMCommandPhase.xplm_CommandContinue (host_at 40)).state
        = captured_state
    ∧ (rudder_right_cb captured_state XPLMCommandPhase.xplm_CommandContinue (host_at 40)).effects
        = [] := by
  have h1 : captured_state.rudder_control = 1
      ∨ (captured_state.yoke_control_enabled = 0 ∧ captured_state.bind_rudder = 1) := by
    left; rw [captured_state_eq]
  exact ⟨h1,
    (keyboard_suppressed captured_state XPLMCommandPhase.xplm_CommandContinue (host_at 40) h1).2⟩

/-! ## C7: when the decay may run -/

/-- On an enabled tick the decay is gated as C7 says: when keyboard rudder is
active and the button is not held, the tick leaves the yaw as it is and writes
nothing to the heading output. -/
theorem enabled_tick_keeps_yaw_while_key_held (s : State) (h : Host)
    (he : s.yoke_control_enabled ≠ 0) (hb : h.left_mouse_down = 0)
    (hk : s.kbd_rudder_on = true) :
    (loop_cb s h).state.yaw_ratio = s.yaw_ratio
    ∧ ∀ v : ℚ, Effect.set_heading v ∉ (loop_cb s h).effects := by
  obtain ⟨f1, f2, f3, f4, f5, f6, f7, f8⟩ := controlling_rudder_frame s h h.cursor.1 h.cursor.2
  have hr := (controlling_rudder_ret_eq_zero_iff s h h.cursor.1 h.cursor.2).mpr hb
  have hd : ¬ ((controlling_rudder s h h.cursor.1 h.cursor.2).state.yaw_ratio ≠ 0
      ∧ (controlling_rudder s h h.cursor.1 h.cursor.2).state.rudder_return ≠ 0
      ∧ (controlling_rudder s h h.cursor.1 h.cursor.2).state.kbd_rudder_on = false) := by
    rw [f6, hk]; simp
  rw [loop_cb_yoke_idle s h he hr hd]
  refine ⟨f1, ?_⟩
  intro v hv
  simp only [List.mem_append, List.mem_cons, List.mem_nil_iff, or_false, reduceCtorEq] at hv
  exact controlling_rudder_no_heading s h h.cursor.1 h.cursor.2 v hv

/-- C7 fails on the code in the disabled branch of `loop_cb`, which tests
`yaw_ratio != 0 && rudder_return` without `!kbd_rudder_on`.  With default
settings and yoke control never enabled: RudderRight pressed at 0 ms, released
at 1000 ms (which schedules the flight loop), a tick at 1010 ms (which returns
`-1`, so the loop keeps running), RudderRight pressed again at 1020 ms.  The key
is now held (`kbd_rudder_on`), capture is off, yaw is `3/20`; the tick at
1030 ms nevertheless runs the decay and stores yaw `11/100`. -/
theorem disabled_tick_decays_while_key_held :
    (loop_cb (run (initial_state default_config) (double_tap.take 2)) (host_at 1010)).ret = -1
    ∧ (run (initial_state default_config) double_tap).yoke_control_enabled = 0
    ∧ (run (initial_state default_config) double_tap).kbd_rudder_on = true
    ∧ (run (initial_state default_config) double_tap).rudder_control = 0
    ∧ (run (initial_state default_config) double_tap).yaw_ratio = 3 / 20
    ∧ (loop_cb (run (initial_state default_config) double_tap) (host_at 1030)).state.yaw_ratio
        = 11 / 100
    ∧ (loop_cb (run (initial_state default_config) double_tap) (host_at 1030)).effects
        = [Effect.set_heading (11 / 100)] := by
  have hs : run (initial_state default_config) double_tap
      = { initial_state default_config with
          yaw_ratio := 3 / 20, kbd_rudder_on := true, _last_time := 1010 } := by
    simp [double_tap, run, step, rudder_right_cb, loop_cb, rudder_return_step, initial_state,
      default_config, host_at, idle_host]
  refine ⟨?_, ?_, ?_, ?_, ?_, ?_, ?_⟩
  · simp [double_tap, run, step, rudder_right_cb, loop_cb, rudder_return_step, initial_state,
      default_config, host_at, idle_host]
    norm_num
  · rw [hs]; rfl
  · rw [hs]
  · rw [hs]; rfl
  · rw [hs]
  · rw [hs]
    simp [loop_cb, rudder_return_step, initial_state, default_config, host_at, idle_host]
    norm_num
  · rw [hs]
    simp [loop_cb, rudder_return_step, initial_state, default_config, host_at, idle_host]
    norm_num

/-! ## C8: what the tick returns -/

/-- C8: a tick taken while yoke control is enabled returns `-1` ("run again next
tick").  A tick taken while disabled returns `-1` exactly when it ran a decay
step (yaw non-zero and rudder-return on before the tick) and the yaw is still
non-zero afterwards; in every other case it returns `0` ("stop"), in particular
whenever the yaw after the tick is `0`. -/
theorem scheduler_return_policy (s : State) (h : Host) :
    (s.yoke_control_enabled ≠ 0 → (loop_cb s h).ret = -1)
    ∧ (s.yoke_control_enabled = 0 →
        ((loop_cb s h).ret = -1 ↔
          (s.yaw_ratio ≠ 0 ∧ s.rudder_return ≠ 0) ∧ (loop_cb s h).state.yaw_ratio ≠ 0)
        ∧ ((loop_cb s h).ret ≠ -1 → (loop_cb s h).ret = 0)
        ∧ ((loop_cb s h).state.yaw_ratio = 0 → (loop_cb s h).ret = 0)) := by
  constructor
  · intro he
    by_cases hr : (controlling_rudder s h h.cursor.1 h.cursor.2).ret = 0
    · by_cases hd : (controlling_rudder s h h.cursor.1 h.cursor.2).state.yaw_ratio ≠ 0
          ∧ (controlling_rudder s h h.cursor.1 h.cursor.2).state.rudder_return ≠ 0
          ∧ (controlling_rudder s h h.cursor.1 h.cursor.2).state.kbd_rudder_on = false
      · rw [loop_cb_yoke_decay s h he hr hd]
      · rw [loop_cb_yoke_idle s h he hr hd]
    · rw [loop_cb_capture s h he hr]
  · intro he
    by_cases hd : s.yaw_ratio ≠ 0 ∧ s.rudder_return ≠ 0
    · rw [loop_cb_disabled_decay s h he hd]
      simp only
      by_cases hz : rudder_return_step s.yaw_ratio s.rudder_ret_spd h.time_ms s._last_time = 0
      · rw [if_neg (not_not.mpr hz)]
        refine ⟨⟨fun h0 => absurd h0 (by norm_num), fun h1 => absurd hz h1.2⟩,
          fun _ => rfl, fun _ => rfl⟩
      · rw [if_pos hz]
        exact ⟨⟨fun _ => ⟨hd, hz⟩, fun _ => rfl⟩, fun h1 => absurd rfl h1, fun h0 => absurd h0 hz⟩
    · rw [loop_cb_disabled_idle s h he hd]
      simp only
      exact ⟨⟨fun h0 => absurd h0 (by norm_num), fun h1 => absurd h1.1 hd⟩,
        fun _ => trivial, fun _ => trivial⟩

/-! ## C9: the mode transitions -/

theorem loop_cb_keeps_capture_only_when_enabled (s : State) (h : Host)
    (hm : capture_only_when_enabled s) : capture_only_when_enabled (loop_cb s h).state := by
  obtain ⟨f1, f2, f3, f4, f5, f6, f7, f8⟩ := controlling_rudder_frame s h h.cursor.1 h.cursor.2
  unfold capture_only_when_enabled at *
  by_cases he : s.yoke_control_enabled = 0
  · by_cases hd : s.yaw_ratio ≠ 0 ∧ s.rudder_return ≠ 0
    · rw [loop_cb_disabled_decay s h he hd]; exact hm
    · rw [loop_cb_disabled_idle s h he hd]; exact hm
  · by_cases hr : (controlling_rudder s h h.cursor.1 h.cursor.2).ret = 0
    · by_cases hd : (controlling_rudder s h h.cursor.1 h.cursor.2).state.yaw_ratio ≠ 0
          ∧ (controlling_rudder s h h.cursor.1 h.cursor.2).state.rudder_return ≠ 0
          ∧ (controlling_rudder s h h.cursor.1 h.cursor.2).state.kbd_rudder_on = false
      · rw [loop_cb_yoke_decay s h he hr hd]
        intro h0; exact absurd (f8 ▸ h0) he
      · rw [loop_cb_yoke_idle s h he hr hd]
        intro h0; exact absurd (f8 ▸ h0) he
    · rw [loop_cb_capture s h he hr]
      intro h0; exact absurd (f8 ▸ h0) he

theorem toggle_enables (s : State) (h : Host) (hd : s.yoke_control_enabled = 0) :
    toggle_yoke_control_cb s XPLMCommandPhase.xplm_CommandBegin h =
      { state := { s with screen_width := h.screen_size.1,
                          screen_height := h.screen_size.2,
                          yoke_control_enabled := 1 },
        effects :=
          (if s.set_pos ≠ 0 then set_cursor_from_yoke h.screen_size.1 h.screen_size.2 h else [])
            ++ change_cursor_bmp s cursor_t.CURSOR_YOKE
            ++ [Effect.schedule_flight_loop],
        ret := 1 } := by
  unfold toggle_yoke_control_cb
  rw [if_neg (not_not.mpr rfl), if_neg (not_not.mpr hd)]

theorem toggle_disables (s : State) (h : Host) (he : s.yoke_control_enabled ≠ 0) :
    toggle_yoke_control_cb s XPLMCommandPhase.xplm_CommandBegin h =
      { state := { s with yoke_control_enabled := 0, rudder_control := 0 },
        effects := change_cursor_bmp s cursor_t.CURSOR_ARROW,
        ret := 1 } := by
  unfold toggle_yoke_control_cb
  rw [if_neg (not_not.mpr rfl), if_pos he]

theorem step_keeps_capture_only_when_enabled (s : State) (e : Event)
    (hm : capture_only_when_enabled s) : capture_only_when_enabled (step s e).1 := by
  cases e with
  | tick h => exact loop_cb_keeps_capture_only_when_enabled s h hm
  | toggle p h =>
    unfold capture_only_when_enabled at *
    show (toggle_yoke_control_cb s p h).state.yoke_control_enabled = 0 →
      (toggle_yoke_control_cb s p h).state.rudder_control = 0
    by_cases hp : p = XPLMCommandPhase.xplm_CommandBegin
    · subst hp
      by_cases he : s.yoke_control_enabled = 0
      · rw [toggle_enables s h he]
        intro h0; exact absurd h0 (by norm_num)
      · rw [toggle_disables s h he]
        intro _; rfl
    · unfold toggle_yoke_control_cb
      rw [if_pos hp]
      exact hm
  | rudder_left p h =>
    unfold capture_only_when_enabled at *
    simp only [step]
    unfold rudder_left_cb
    simp only
    split_ifs <;> exact hm
  | rudder_right p h =>
    unfold capture_only_when_enabled at *
    simp only [step]
    unfold rudder_right_cb
    simp only
    split_ifs <;> exact hm

theorem run_keeps_capture_only_when_enabled (es : List Event) :
    ∀ s : State, capture_only_when_enabled s → capture_only_when_enabled (run s es) := by
  induction es with
  | nil => intro s hm; exact hm
  | cons e es ih => intro s hm; exact ih _ (step_keeps_capture_only_when_enabled s e hm)

theorem reachable_capture_only_when_enabled (c : Config) (s : State) (hr : Reachable c s) :
    capture_only_when_enabled s := by
  obtain ⟨es, hes⟩ := hr
  rw [← hes]
  exact run_keeps_capture_only_when_enabled es _ (fun _ => rfl)

/-- The tick on which capture begins: the capture flag is set, the anchor is
the pointer position the host reports, control stays enabled. -/
theorem loop_cb_enters_capture (s : State) (h : Host)
    (he : s.yoke_control_enabled ≠ 0) (hc : s.rudder_control = 0) (hb : h.left_mouse_down ≠ 0) :
    (loop_cb s h).state.yoke_control_enabled = s.yoke_control_enabled
    ∧ (loop_cb s h).state.rudder_control = 1
    ∧ (loop_cb s h).state.cursor_pos = h.mouse_global := by
  obtain ⟨hst, hret⟩ := controlling_rudder_held_entry s h h.cursor.1 h.cursor.2 hb hc
  rw [loop_cb_capture s h he (by rw [hret]; norm_num)]
  simp only [hst]
  exact ⟨trivial, trivial, trivial⟩

/-- The tick on which capture ends: the capture flag is cleared, the anchor is
kept, the pointer is put back on the anchor, control stays enabled. -/
theorem loop_cb_leaves_capture (s : State) (h : Host)
    (he : s.yoke_control_enabled ≠ 0) (hc : s.rudder_control ≠ 0) (hb : h.left_mouse_down = 0) :
    (loop_cb s h).state.yoke_control_enabled = s.yoke_control_enabled
    ∧ (loop_cb s h).state.rudder_control = 0
    ∧ (loop_cb s h).state.cursor_pos = s.cursor_pos
    ∧ Effect.set_cursor_pos s.cursor_pos.1 s.cursor_pos.2 ∈ (loop_cb s h).effects := by
  have hcr := controlling_rudder_released_capture s h h.cursor.1 h.cursor.2 hb hc
  have hr := (controlling_rudder_ret_eq_zero_iff s h h.cursor.1 h.cursor.2).mpr hb
  by_cases hd : (controlling_rudder s h h.cursor.1 h.cursor.2).state.yaw_ratio ≠ 0
      ∧ (controlling_rudder s h h.cursor.1 h.cursor.2).state.rudder_return ≠ 0
      ∧ (controlling_rudder s h h.cursor.1 h.cursor.2).state.kbd_rudder_on = false
  · rw [loop_cb_yoke_decay s h he hr hd, hcr]
    exact ⟨rfl, rfl, rfl, by simp⟩
  · rw [loop_cb_yoke_idle s h he hr hd, hcr]
    exact ⟨rfl, rfl, rfl, by simp⟩

theorem disabled_tick_stays_disabled (s : State) (h : Host) (he : s.yoke_control_enabled = 0) :
    (loop_cb s h).state.yoke_control_enabled = 0 := by
  by_cases hd : s.yaw_ratio ≠ 0 ∧ s.rudder_return ≠ 0
  · rw [loop_cb_disabled_decay s h he hd]; exact he
  · rw [loop_cb_disabled_idle s h he hd]; exact he

theorem disabled_ticks_stay_disabled (ticks : List Host) :
    ∀ s : State, s.yoke_control_enabled = 0 →
      (run s (ticks.map Event.tick)).yoke_control_enabled = 0 := by
  induction ticks with
  | nil => intro s he; exact he
  | cons h ticks ih => intro s he; exact ih _ (disabled_tick_stays_disabled s h he)

theorem decay_spec_strict (yaw s dt : ℚ) (hy : yaw ≠ 0) (hm : 0 < dt * s) :
    |decay_spec yaw s dt| < |yaw| := by
  unfold decay_spec
  rcases lt_or_gt_of_ne hy with hneg | hpos
  · rw [if_neg (not_lt.mpr (le_of_lt hneg)), if_pos hneg, abs_of_neg hneg,
      abs_of_nonpos (min_le_left _ _), neg_lt_neg_iff]
    exact lt_min hneg (by linarith)
  · rw [if_pos hpos, abs_of_pos hpos, abs_of_nonneg (le_max_left _ _)]
    exact max_lt hpos (by linarith)

/-- A tick taken while disabled, with yaw non-zero, rudder-return on, a
non-negative return speed and a clock that has not gone backwards, moves the
yaw toward `0` without passing it; strictly so when the return speed is
positive and time has passed. -/
theorem disabled_tick_moves_toward_zero (s : State) (h : Host)
    (he : s.yoke_control_enabled = 0) (hy : s.yaw_ratio ≠ 0) (hr : s.rudder_return ≠ 0)
    (hs : 0 ≤ s.rudder_ret_spd) (ht : s._last_time ≤ h.time_ms) :
    (0 < s.yaw_ratio →
        0 ≤ (loop_cb s h).state.yaw_ratio ∧ (loop_cb s h).state.yaw_ratio ≤ s.yaw_ratio)
    ∧ (s.yaw_ratio < 0 →
        s.yaw_ratio ≤ (loop_cb s h).state.yaw_ratio ∧ (loop_cb s h).state.yaw_ratio ≤ 0)
    ∧ (0 < s.rudder_ret_spd → s._last_time < h.time_ms →
        |(loop_cb s h).state.yaw_ratio| < |s.yaw_ratio|) := by
  obtain ⟨d1, d2, _, _⟩ := decay_spec_toward_zero s.yaw_ratio s.rudder_ret_spd
    (((h.time_ms - s._last_time : Int) : ℚ) / 1000) hs (elapsed_nonneg _ _ ht)
  have hyaw : (loop_cb s h).state.yaw_ratio = decay_spec s.yaw_ratio s.rudder_ret_spd
      (((h.time_ms - s._last_time : Int) : ℚ) / 1000) := by
    rw [loop_cb_disabled_decay s h he ⟨hy, hr⟩]
    exact rudder_return_step_eq_decay_spec _ _ _ _ hy
  rw [hyaw]
  refine ⟨d1, d2, ?_⟩
  intro hsp hlt
  apply decay_spec_strict _ _ _ hy
  have : (0 : ℚ) < ((h.time_ms - s._last_time : Int) : ℚ) := by
    exact_mod_cast (by omega : (0 : Int) < h.time_ms - s._last_time)
  positivity

/-- C9 (amended): for every reachable state `s0` with yoke control disabled,
(1) ToggleControl "begin" yields enabled with rudder capture inactive and
schedules the flight loop; (2) a following tick with the capture button held
yields rudder capture active with the anchor equal to the pointer position the
host reports at that tick; (3) a following tick with the button released yields
rudder capture inactive, the anchor unchanged, and the pointer set back to the
anchor; (4) a second ToggleControl "begin" yields disabled with the capture
flag cleared, after which control stays disabled over any number of ticks, and
each such tick with yaw non-zero, rudder-return on, non-negative return speed
and a clock that has not gone backwards moves the yaw toward `0` without
passing it (strictly when the return speed is positive and time has passed).
The deflection distance is assumed non-zero because only then is the yaw the
capture tick stores the one the C code computes. -/
theorem mode_transition_scenario (c : Config) (s0 : State) (h1 h2 h3 h4 : Host)
    (hreach : Reachable c s0) (hdis : s0.yoke_control_enabled = 0)
    (_hD : s0.rudder_defl_dist ≠ 0)
    (hheld : h2.left_mouse_down ≠ 0) (hrel : h3.left_mouse_down = 0) :
    ((after_enable s0 h1).yoke_control_enabled = 1
      ∧ (after_enable s0 h1).rudder_control = 0
      ∧ Effect.schedule_flight_loop
          ∈ (toggle_yoke_control_cb s0 XPLMCommandPhase.xplm_CommandBegin h1).effects)
    ∧ ((after_press s0 h1 h2).yoke_control_enabled = 1
      ∧ (after_press s0 h1 h2).rudder_control = 1
      ∧ (after_press s0 h1 h2).cursor_pos = h2.mouse_global)
    ∧ ((after_release s0 h1 h2 h3).yoke_control_enabled = 1
      ∧ (after_release s0 h1 h2 h3).rudder_control = 0
      ∧ (after_release s0 h1 h2 h3).cursor_pos = (after_press s0 h1 h2).cursor_pos
      ∧ Effect.set_cursor_pos (after_press s0 h1 h2).cursor_pos.1
            (after_press s0 h1 h2).cursor_pos.2
          ∈ (loop_cb (after_press s0 h1 h2) h3).effects)
    ∧ ((after_disable s0 h1 h2 h3 h4).yoke_control_enabled = 0
      ∧ (after_disable s0 h1 h2 h3 h4).rudder_control = 0)
    ∧ (∀ (ticks : List Host) (h : Host),
        (after_ticks s0 h1 h2 h3 h4 ticks).yoke_control_enabled = 0
        ∧ ((after_ticks s0 h1 h2 h3 h4 ticks).yaw_ratio ≠ 0 →
            (after_ticks s0 h1 h2 h3 h4 ticks).rudder_return ≠ 0 →
            0 ≤ (after_ticks s0 h1 h2 h3 h4 ticks).rudder_ret_spd →
            (after_ticks s0 h1 h2 h3 h4 ticks)._last_time ≤ h.time_ms →
            (0 < (after_ticks s0 h1 h2 h3 h4 ticks).yaw_ratio →
                0 ≤ (loop_cb (after_ticks s0 h1 h2 h3 h4 ticks) h).state.yaw_ratio
                ∧ (loop_cb (after_ticks s0 h1 h2 h3 h4 ticks) h).state.yaw_ratio
                    ≤ (after_ticks s0 h1 h2 h3 h4 ticks).yaw_ratio)
            ∧ ((after_ticks s0 h1 h2 h3 h4 ticks).yaw_ratio < 0 →
                (after_ticks s0 h1 h2 h3 h4 ticks).yaw_ratio
                    ≤ (loop_cb (after_ticks s0 h1 h2 h3 h4 ticks) h).state.yaw_ratio
                ∧ (loop_cb (after_ticks s0 h1 h2 h3 h4 ticks) h).state.yaw_ratio ≤ 0)
            ∧ (0 < (after_ticks s0 h1 h2 h3 h4 ticks).rudder_ret_spd →
                (after_ticks s0 h1 h2 h3 h4 ticks)._last_time
                    < h.time_ms →
                |(loop_cb (after_ticks s0 h1 h2 h3 h4 ticks) h).state.yaw_ratio|
                  < |(after_ticks s0 h1 h2 h3 h4 ticks).yaw_ratio|))) := by
  have hcap0 : s0.rudder_control = 0 := reachable_capture_only_when_enabled c s0 hreach hdis
  have e1 : (after_enable s0 h1).yoke_control_enabled = 1
      ∧ (after_enable s0 h1).rudder_control = 0 := by
    unfold after_enable
    rw [toggle_enables s0 h1 hdis]
    exact ⟨rfl, hcap0⟩
  have e1ne : (after_enable s0 h1).yoke_control_enabled ≠ 0 := by rw [e1.1]; norm_num
  obtain ⟨p1, p2, p3⟩ := loop_cb_enters_capture (after_enable s0 h1) h2 e1ne e1.2 hheld
  have e2 : (after_press s0 h1 h2).yoke_control_enabled = 1
      ∧ (after_press s0 h1 h2).rudder_control = 1
      ∧ (after_press s0 h1 h2).cursor_pos = h2.mouse_global :=
    ⟨by unfold after_press; rw [p1, e1.1], p2, p3⟩
  have e2ne : (after_press s0 h1 h2).yoke_control_enabled ≠ 0 := by rw [e2.1]; norm_num
  have e2cap : (after_press s0 h1 h2).rudder_control ≠ 0 := by rw [e2.2.1]; norm_num
  obtain ⟨r1, r2, r3, r4⟩ := loop_cb_leaves_capture (after_press s0 h1 h2) h3 e2ne e2cap hrel
  have e3 : (after_release s0 h1 h2 h3).yoke_control_enabled = 1 := by
    unfold after_release; rw [r1, e2.1]
  have e3ne : (after_release s0 h1 h2 h3).yoke_control_enabled ≠ 0 := by rw [e3]; norm_num
  have e4 : (after_disable s0 h1 h2 h3 h4).yoke_control_enabled = 0
      ∧ (after_disable s0 h1 h2 h3 h4).rudder_control = 0 := by
    unfold after_disable
    rw [toggle_disables _ h4 e3ne]
    exact ⟨rfl, rfl⟩
  refine ⟨⟨e1.1, e1.2, ?_⟩, e2, ⟨e3, r2, r3, r4⟩, e4, ?_⟩
  · rw [toggle_enables s0 h1 hdis]
    simp
  · intro ticks h
    have hd : (after_ticks s0 h1 h2 h3 h4 ticks).yoke_control_enabled = 0 :=
      disabled_ticks_stay_disabled ticks (after_disable s0 h1 h2 h3 h4) e4.1
    refine ⟨hd, ?_⟩
    intro hy hr hs ht
    exact disabled_tick_moves_toward_zero _ h hd hy hr hs ht

/-- The mode transition scenario applied to the state after start-up with
default settings: enable on a 400 x 400 screen, press at `(100, 100)`, release
at `(300, 300)`, disable; the anchor recorded at the press is `(100, 100)`. -/
theorem mode_transition_scenario_witness :
    (Reachable default_config (initial_state default_config)
      ∧ (initial_state default_config).yoke_control_enabled = 0
      ∧ (initial_state default_config).rudder_defl_dist ≠ 0
      ∧ (host_with 20 100 100 1).left_mouse_down ≠ 0
      ∧ (host_with 40 300 300 0).left_mouse_down = 0)
    ∧ (after_press (initial_state default_config) (host_with 0 200 200 0)
        (host_with 20 100 100 1)).cursor_pos = (100, 100) :=
  ⟨⟨⟨[], rfl⟩, rfl, by simp [initial_state, default_config], by simp [host_with], rfl⟩,
    (mode_transition_scenario default_config (initial_state default_config)
      (host_with 0 200 200 0) (host_with 20 100 100 1) (host_with 40 300 300 0)
      (host_with 60 300 300 0) ⟨[], rfl⟩ rfl (by simp [initial_state, default_config])
      (by simp [host_with]) rfl).2.1.2.2⟩

theorem keyed_state_eq :
    keyed_state = { initial_state no_return_config with yaw_ratio := 3 / 20, kbd_rudder_on := true } := by
  simp [keyed_state, run, step, rudder_right_cb, initial_state, no_return_config, default_config]

/-- C9 (as stated) fails at its last clause when the "Rudder Center" option is
off.  Start from the reachable disabled state with yaw `3/20` (one RudderRight
"begin" after start-up), run the scenario (enable, press at `(100, 100)`,
release, disable): the yaw is still `3/20`, and the next tick, 20 ms later,
leaves it at `3/20` and returns "stop". -/
theorem decay_absent_when_rudder_return_off :
    (Reachable no_return_config keyed_state ∧ keyed_state.yoke_control_enabled = 0
      ∧ keyed_state.rudder_defl_dist = 200)
    ∧ (after_disable keyed_state (host_with 0 200 200 0) (host_with 20 100 100 1)
        (host_with 40 100 100 0) (host_with 60 100 100 0)).yaw_ratio = 3 / 20
    ∧ (loop_cb (after_disable keyed_state (host_with 0 200 200 0) (host_with 20 100 100 1)
        (host_with 40 100 100 0) (host_with 60 100 100 0))
          (host_with 80 100 100 0)).state.yaw_ratio = 3 / 20
    ∧ (loop_cb (after_disable keyed_state (host_with 0 200 200 0) (host_with 20 100 100 1)
        (host_with 40 100 100 0) (host_with 60 100 100 0))
          (host_with 80 100 100 0)).ret = 0 := by
  have hs : after_disable keyed_state (host_with 0 200 200 0) (host_with 20 100 100 1)
      (host_with 40 100 100 0) (host_with 60 100 100 0)
      = { initial_state no_return_config with
          screen_width := 400, screen_height := 400, cursor_pos := (100, 100),
          yaw_ratio := 3 / 20, kbd_rudder_on := true, _last_time := 20 } := by
    rw [keyed_state_eq]
    simp [after_disable, after_release, after_press, after_enable, toggle_yoke_control_cb,
      loop_cb, controlling_rudder, capture_yaw, float_to_int, initial_state, no_return_config,
      default_config, host_with]
    norm_num
  refine ⟨⟨⟨_, rfl⟩, ?_, ?_⟩, ?_, ?_, ?_⟩
  · rw [keyed_state_eq]; rfl
  · rw [keyed_state_eq]; rfl
  · rw [hs]
  · rw [hs]
    simp [loop_cb, initial_state, no_return_config, default_config]
  · rw [hs]
    simp [loop_cb, initial_state, no_return_config, default_config]

/-! ## C10: the range of roll and pitch -/

theorem roll_spec_range (x W : Int) (hW : 0 < W) (hx : 0 ≤ x ∧ x ≤ W) :
    -1 ≤ roll_spec x W ∧ roll_spec x W ≤ 1 := by
  have hq : (0 : ℚ) < (W : ℚ) := by exact_mod_cast hW
  have h0 : (0 : ℚ) ≤ (x : ℚ) := by exact_mod_cast hx.1
  have h1 : (x : ℚ) ≤ (W : ℚ) := by exact_mod_cast hx.2
  have hd0 : (0 : ℚ) ≤ (x : ℚ) / (W : ℚ) := div_nonneg h0 (le_of_lt hq)
  have hd1 : (x : ℚ) / (W : ℚ) ≤ 1 := (div_le_one hq).mpr h1
  unfold roll_spec
  constructor <;> linarith

theorem pitch_spec_range (y H : Int) (hH : 0 < H) (hy : 0 ≤ y ∧ y ≤ H) :
    -1 ≤ pitch_spec y H ∧ pitch_spec y H ≤ 1 := by
  have hq : (0 : ℚ) < (H : ℚ) := by exact_mod_cast hH
  have h0 : (0 : ℚ) ≤ (y : ℚ) := by exact_mod_cast hy.1
  have h1 : (y : ℚ) ≤ (H : ℚ) := by exact_mod_cast hy.2
  have hd0 : (0 : ℚ) ≤ (y : ℚ) / (H : ℚ) := div_nonneg h0 (le_of_lt hq)
  have hd1 : (y : ℚ) / (H : ℚ) ≤ 1 := (div_le_one hq).mpr h1
  unfold pitch_spec
  constructor <;> linarith

theorem roll_spec_zero_iff (x W : Int) (hW : 0 < W) : roll_spec x W = 0 ↔ 2 * x = W := by
  have hq : (W : ℚ) ≠ 0 := by exact_mod_cast (ne_of_gt hW)
  unfold roll_spec
  constructor
  · intro h
    have h2 : (x : ℚ) / (W : ℚ) = 1 / 2 := by linarith
    rw [div_eq_iff hq] at h2
    have h3 : (2 : ℚ) * (x : ℚ) = (W : ℚ) := by linarith
    exact_mod_cast h3
  · intro h
    have h3 : (W : ℚ) = 2 * (x : ℚ) := by exact_mod_cast h.symm
    have h2 : (x : ℚ) / (W : ℚ) = 1 / 2 := by
      rw [div_eq_iff hq]; linarith
    rw [h2]; norm_num

theorem pitch_spec_zero_iff (y H : Int) (hH : 0 < H) : pitch_spec y H = 0 ↔ 2 * y = H := by
  have hq : (H : ℚ) ≠ 0 := by exact_mod_cast (ne_of_gt hH)
  unfold pitch_spec
  constructor
  · intro h
    have h2 : (y : ℚ) / (H : ℚ) = 1 / 2 := by linarith
    rw [div_eq_iff hq] at h2
    have h3 : (2 : ℚ) * (y : ℚ) = (H : ℚ) := by linarith
    exact_mod_cast h3
  · intro h
    have h3 : (H : ℚ) = 2 * (y : ℚ) := by exact_mod_cast h.symm
    have h2 : (y : ℚ) / (H : ℚ) = 1 / 2 := by
      rw [div_eq_iff hq]; linarith
    rw [h2]; norm_num

/-- The pointer values `controlling_rudder` leaves behind when the button is
not held: the sample, or the anchor on the tick that ends capture. -/
theorem controlling_rudder_released_pointer (s : State) (h : Host) (hb : h.left_mouse_down = 0) :
    (controlling_rudder s h h.cursor.1 h.cursor.2).x
        = (if s.rudder_control = 0 then h.cursor.1 else s.cursor_pos.1)
    ∧ (controlling_rudder s h h.cursor.1 h.cursor.2).y
        = (if s.rudder_control = 0 then h.cursor.2 else s.cursor_pos.2) := by
  by_cases hc : s.rudder_control = 0
  · rw [controlling_rudder_released_yoke s h _ _ hb hc, if_pos hc, if_pos hc]
    exact ⟨rfl, rfl⟩
  · rw [controlling_rudder_released_capture s h _ _ hb hc, if_neg hc, if_neg hc]
    exact ⟨rfl, rfl⟩

theorem controlling_rudder_no_axis (s : State) (h : Host) (x y : Int) (v : ℚ) :
    Effect.set_roll v ∉ (controlling_rudder s h x y).effects
    ∧ Effect.set_pitch v ∉ (controlling_rudder s h x y).effects := by
  unfold controlling_rudder change_cursor_bmp
  split_ifs <;> simp

theorem state_before_key_release_eq :
    state_before_key_release =
      { initial_state default_config with
        screen_width := 400, screen_height := 400, yoke_control_enabled := 1,
        rudder_control := 1, cursor_pos := (100, 100), kbd_rudder_on := true,
        yaw_ratio := 1 / 4, _last_time := 40 } := by
  simp [state_before_key_release, stuck_flag_events, run, step, toggle_yoke_control_cb,
    rudder_right_cb, loop_cb, controlling_rudder, capture_yaw, float_to_int, initial_state,
    default_config, host_with]
  norm_num

theorem stuck_state_eq :
    stuck_state =
      { initial_state default_config with
        screen_width := 400, screen_height := 400, yoke_control_enabled := 1,
        rudder_control := 0, cursor_pos := (100, 100), kbd_rudder_on := true,
        yaw_ratio := 1 / 4, _last_time := 40 } := by
  simp [stuck_state, stuck_flag_events, run, step, toggle_yoke_control_cb,
    rudder_right_cb, loop_cb, controlling_rudder, capture_yaw, float_to_int, initial_state,
    default_config, host_with]
  norm_num

/-- An enabled tick in yoke mode (capture flag clear, button not held) taken
while the keyboard-active flag is set changes no global at all. -/
theorem yoke_tick_with_key_flag_keeps_state (s : State) (h : Host)
    (he : s.yoke_control_enabled ≠ 0) (hc : s.rudder_control = 0)
    (hk : s.kbd_rudder_on = true) (hb : h.left_mouse_down = 0) :
    (loop_cb s h).state = s := by
  have hcr := controlling_rudder_released_yoke s h h.cursor.1 h.cursor.2 hb hc
  have hr : (controlling_rudder s h h.cursor.1 h.cursor.2).ret = 0 := by rw [hcr]
  have hd : ¬ ((controlling_rudder s h h.cursor.1 h.cursor.2).state.yaw_ratio ≠ 0
      ∧ (controlling_rudder s h h.cursor.1 h.cursor.2).state.rudder_return ≠ 0
      ∧ (controlling_rudder s h h.cursor.1 h.cursor.2).state.kbd_rudder_on = false) := by
    rw [hcr]
    intro hcon
    rw [hk] at hcon
    exact absurd hcon.2.2 (by decide)
  rw [loop_cb_yoke_idle s h he hr hd, hcr]

theorem yoke_ticks_with_key_flag_keep_state (ticks : List Host) :
    ∀ s : State, s.yoke_control_enabled ≠ 0 → s.rudder_control = 0 → s.kbd_rudder_on = true →
      (∀ h ∈ ticks, h.left_mouse_down = 0) → run s (ticks.map Event.tick) = s := by
  induction ticks with
  | nil => intro s _ _ _ _; rfl
  | cons h ticks ih =>
    intro s he hc hk hb
    have h1 : (loop_cb s h).state = s :=
      yoke_tick_with_key_flag_keeps_state s h he hc hk (hb h (List.mem_cons_self _ _))
    show run (loop_cb s h).state (ticks.map Event.tick) = s
    rw [h1]
    exact ih s he hc hk (fun h' hm => hb h' (List.mem_cons_of_mem _ hm))

/-- C11: the sequence ToggleControl "begin"; RudderRight "begin"; tick with the
mouse button held; tick with the button held and the pointer displaced from the
anchor; RudderRight "end"; tick with the button released (default settings)
leaves no rudder key down, yet the "end", arriving while capture is active,
changes nothing and makes no host call.  The final state has control enabled,
capture inactive, yaw `1/4`, rudder-return on and the keyboard-active flag
still set.  From that state every further run of enabled ticks with the button
not held leaves every global, the yaw included, as it is, and none of these
ticks writes to the heading output: the return-to-center decay never runs.
With the flag cleared the same state would decay: a tick at 80 ms would store
yaw `17/100`. -/
theorem keyboard_flag_stuck_after_capture :
    rudder_key_down false stuck_flag_events = false
    ∧ ((rudder_right_cb state_before_key_release XPLMCommandPhase.xplm_CommandEnd
          (host_with 50 150 100 1)).state = state_before_key_release
      ∧ (rudder_right_cb state_before_key_release XPLMCommandPhase.xplm_CommandEnd
          (host_with 50 150 100 1)).effects = [])
    ∧ (stuck_state.yoke_control_enabled = 1 ∧ stuck_state.rudder_control = 0
      ∧ stuck_state.yaw_ratio = 1 / 4 ∧ stuck_state.yaw_ratio ≠ 0
      ∧ stuck_state.rudder_return ≠ 0 ∧ stuck_state.kbd_rudder_on = true)
    ∧ (∀ ticks : List Host, (∀ h ∈ ticks, h.left_mouse_down = 0) →
        run stuck_state (ticks.map Event.tick) = stuck_state
        ∧ (run stuck_state (ticks.map Event.tick)).yaw_ratio = 1 / 4
        ∧ ∀ h : Host, h.left_mouse_down = 0 → ∀ v : ℚ,
            Effect.set_heading v
              ∉ (loop_cb (run stuck_state (ticks.map Event.tick)) h).effects)
    ∧ (loop_cb { stuck_state with kbd_rudder_on := false }
        (host_with 80 150 100 0)).state.yaw_ratio = 17 / 100 := by
  have hen : stuck_state.yoke_control_enabled ≠ 0 := by rw [stuck_state_eq]; norm_num
  have hcap : stuck_state.rudder_control = 0 := by rw [stuck_state_eq]
  have hkey : stuck_state.kbd_rudder_on = true := by rw [stuck_state_eq]
  have hyaw : stuck_state.yaw_ratio = 1 / 4 := by rw [stuck_state_eq]
  refine ⟨rfl, ?_, ⟨?_, hcap, hyaw, ?_, ?_, hkey⟩, ?_, ?_⟩
  · have hc1 : state_before_key_release.rudder_control = 1 := by
      rw [state_before_key_release_eq]
    unfold rudder_right_cb
    by_cases hb : state_before_key_release.yoke_control_enabled = 0
        ∧ state_before_key_release.bind_rudder = 1
    · rw [if_pos hb]; exact ⟨rfl, rfl⟩
    · rw [if_neg hb, if_pos hc1]; exact ⟨rfl, rfl⟩
  · rw [stuck_state_eq]
  · rw [hyaw]; norm_num
  · rw [stuck_state_eq]; simp [initial_state, default_config]
  · intro ticks hb
    have hrun := yoke_ticks_with_key_flag_keep_state ticks stuck_state hen hcap hkey hb
    rw [hrun]
    refine ⟨rfl, hyaw, ?_⟩
    intro h hbh v hv
    have hcr := controlling_rudder_released_yoke stuck_state h h.cursor.1 h.cursor.2 hbh hcap
    have hr : (controlling_rudder stuck_state h h.cursor.1 h.cursor.2).ret = 0 := by rw [hcr]
    have hd : ¬ ((controlling_rudder stuck_state h h.cursor.1 h.cursor.2).state.yaw_ratio ≠ 0
        ∧ (controlling_rudder stuck_state h h.cursor.1 h.cursor.2).state.rudder_return ≠ 0
        ∧ (controlling_rudder stuck_state h h.cursor.1 h.cursor.2).state.kbd_rudder_on
            = false) := by
      rw [hcr]
      intro hcon
      rw [hkey] at hcon
      exact absurd hcon.2.2 (by decide)
    rw [loop_cb_yoke_idle stuck_state h hen hr hd, hcr] at hv
    simp at hv
  · rw [stuck_state_eq]
    simp [loop_cb, controlling_rudder, rudder_return_step, initial_state, default_config,
      host_with]
    norm_num

end BetterMouseYoke
